import Mathlib

/-!
# i40e_net_fix: repair of container macvlan interfaces

A shallow embedding of `main.go`.  The program is a sequence of calls into the
kernel (through `netlink`, `sysctl`, `ns`, `ipam`, `arping`), so the embedding
threads an explicit `World` through every function:

* `World.links` is the kernel's link table, every entry tagged with the network
  namespace it lives in;
* `World.cur` is the namespace of the calling thread;
* `World.faults` is a script of failures that neither the arguments of a call
  nor the link table explain (permissions, exhausted memory, a broken netlink
  socket, a missing kernel module, a device that takes no VLAN, a link that
  another process removes): every external call consumes one entry, `some e`
  makes that call fail with the error text `e` and leaves the link table as it
  was, `none` (or an exhausted script) lets the call run on its arguments and
  on the link table, where it can still fail for a reason these show (a name
  of more than 15 bytes, no such link, name taken, VLAN id out of range or
  taken, parent down, an address that is no unicast address);
* `World.log` records, in order, every external call that was attempted,
  together with the error it returned, if any.

Conventions:
* a Go `(T, error)` result is an `Except String T` paired with the new world;
  the error is its text, which is what `strings.Contains(err.Error(), ...)` reads;
* a Go pointer that may be nil is an `Option`;
* a run-time panic (nil dereference, index out of range) is an explicit outcome;
* `log.Printf` / `log.Println` lines have no effect on control flow or on the
  kernel and are left out; output on standard output is kept as an event.
-/

namespace I40eNetFix

/-! ## Data model -/

/-- Kinds of links the program meets: physical devices, VLANs, macvlans. -/
inductive LinkKind
  | device
  | vlan
  | macvlan
  deriving DecidableEq, Repr

/-- A `netlink.Link` with the attributes of `netlink.LinkAttrs` the program
reads or writes.  `Namespace` is the namespace the link lives in (for a
request handed to `LinkAdd`: the namespace it shall be created in).  The
parent of a VLAN lives in the namespace of the VLAN: the program creates its
VLANs there and moves none. -/
structure Link where
  Name : String
  Index : Nat
  ParentIndex : Nat
  MTU : Int
  HardwareAddr : List Nat
  up : Bool
  kind : LinkKind
  VlanId : Int
  Namespace : Nat
  proxyArp : Bool
  deriving DecidableEq, Repr

/-- A `current.Interface`. -/
structure Interface where
  Name : String
  Mac : String
  Sandbox : String
  deriving DecidableEq, Repr

/-- A `net.IPNet`. -/
structure IPNet where
  IP : List Nat
  Mask : List Nat
  deriving DecidableEq, Repr

/-- A `current.IPConfig`; `Interface` is a `*int`. -/
structure IPConfig where
  Version : String
  Interface : Option Int
  Address : IPNet
  Gateway : List Nat
  deriving DecidableEq, Repr

/-- A `types.Route`. -/
structure Route where
  Dst : IPNet
  GW : List Nat
  deriving DecidableEq, Repr

/-- A `current.Result`; the lists hold pointers, which JSON `null` leaves nil. -/
structure Result where
  CNIVersion : String
  Interfaces : List (Option Interface)
  IPs : List (Option IPConfig)
  Routes : List (Option Route)
  deriving DecidableEq, Repr

/-- The `CheckPoint` record of `main.go`; `Result` is a pointer. -/
structure CheckPoint where
  Netns : String
  Podname : String
  Sandbox : String
  Ifname : String
  Result : Option Result
  deriving DecidableEq, Repr

/-- The fields of `netConf` declared in `main.go`. -/
structure netConf where
  Master : String
  Master2 : String
  VlanID : Int
  Mode : String
  MTU : Int
  IPAM : String
  Token : String
  LogDir : String
  CheckDir : String
  deriving DecidableEq, Repr

/-- An `ns.NetNS` handle: the path it was opened from and the namespace it
denotes. -/
structure NetNS where
  path : String
  id : Nat
  deriving DecidableEq, Repr

/-- External calls, as recorded in `World.log`: the call, the namespace the
caller was in, and in `err` the error the call returned, if it failed. -/
inductive Event
  | print (s : String)
  | stat (file : String)
  | readFile (file : String) (err : Option String)
  | getNS (path : String) (err : Option String)
  | randomVethName (err : Option String)
  | linkByName (ns : Nat) (name : String) (err : Option String)
  | linkAdd (ns : Nat) (req : Link) (err : Option String)
  | linkDel (ns : Nat) (name : String) (err : Option String)
  | linkSetUp (ns : Nat) (index : Nat) (err : Option String)
  | linkSetName (ns : Nat) (index : Nat) (name : String) (err : Option String)
  | linkSetHardwareAddr (ns : Nat) (index : Nat) (hw : List Nat) (err : Option String)
  | sysctl (ns : Nat) (name : String) (value : String) (err : Option String)
  | nsDo (target : Nat) (err : Option String)
  | configureIface (ns : Nat) (ifName : String) (res : Result) (err : Option String)
  | interfaceByName (ns : Nat) (name : String) (err : Option String)
  | gratuitousArp (ns : Nat) (ip : List Nat) (ifName : String) (err : Option String)
  deriving DecidableEq, Repr

/-- The kernel and the calling thread, as far as the program can observe. -/
structure World where
  links : List Link
  cur : Nat
  faults : List (Option String)
  log : List Event
  deriving DecidableEq, Repr

/-! ## Strings -/

/-- Whether `pat` is a prefix of `s`. -/
def startsWith : List Char → List Char → Bool
  | [], _ => true
  | _ :: _, [] => false
  | p :: ps, c :: cs => p == c && startsWith ps cs

/-- Whether `pat` occurs in `s`. -/
def containsChars (pat : List Char) : List Char → Bool
  | [] => startsWith pat []
  | c :: cs => startsWith pat (c :: cs) || containsChars pat cs

/-- Go's `strings.Contains(s, substr)`. -/
def stringsContains (s substr : String) : Bool :=
  containsChars substr.data s.data

/-- The test `strings.Contains(err.Error(), "not found")` of `main.go`. -/
def isNotFound (e : String) : Bool :=
  stringsContains e "not found"

/-- The name `fmt.Sprintf("%s.%d", master, vlanID)`. -/
def vlanName (master : String) (vlanID : Int) : String :=
  master ++ "." ++ toString vlanID

/-- The name `fmt.Sprintf(ipv4InterfaceArpProxySysctlTemplate, name)`. -/
def proxyArpSysctl (name : String) : String :=
  "net.ipv4.conf." ++ name ++ ".proxy_arp"

/-- The kernel's `IFNAMSIZ`: an interface name holds at most 15 bytes. -/
def IFNAMSIZ : Nat := 16

/-- Whether `name` is too long for an interface name: the kernel answers a
request that carries such a name with `ERANGE`.  A Go string is its bytes, so
the length is that of the UTF-8 form. -/
def nameTooLong (name : String) : Bool :=
  decide (IFNAMSIZ ≤ name.utf8ByteSize)

/-- The text of `ERANGE`. -/
def ERANGE : String := "numerical result out of range"

/-! ## The kernel -/

/-- Consume one entry of the fault script. -/
def popFault (w : World) : Option String × World :=
  (w.faults.headD none, { w with faults := w.faults.tail })

/-- Append a call to the log. -/
def record (ev : Event) (w : World) : World :=
  { w with log := w.log ++ [ev] }

/-- The link named `name` in namespace `ns`, if there is one. -/
def findLink (links : List Link) (ns : Nat) (name : String) : Option Link :=
  links.find? (fun l => decide (l.Namespace = ns ∧ l.Name = name))

/-- The link with index `idx` in namespace `ns`, if there is one. -/
def findIndex (links : List Link) (ns : Nat) (idx : Nat) : Option Link :=
  links.find? (fun l => decide (l.Namespace = ns ∧ l.Index = idx))

/-- An interface index no link of the table carries. -/
def freshIndex (links : List Link) : Nat :=
  (links.map (fun l => l.Index)).foldr max 0 + 1

/-- The hardware address the kernel gives a new macvlan: a locally
administered address, here determined by the interface index. -/
def kernelHw (idx : Nat) : List Nat :=
  [2, 0, 0, 0, idx / 256 % 256, idx % 256]

/-- Apply `f` to the link with index `idx` in namespace `ns`. -/
def updateIndex (links : List Link) (ns idx : Nat) (f : Link → Link) : List Link :=
  links.map (fun l => if l.Namespace = ns ∧ l.Index = idx then f l else l)

/-- The VLAN id `netlink` sends for the field `VlanId` of a `netlink.Vlan`:
the conversion `uint16(link.VlanId)`. -/
def vlanTag (id : Int) : Int :=
  id % 65536

/-- Whether the link with index `pidx` of namespace `ns` already carries a
VLAN with the id `tag`. -/
def vlanTaken (links : List Link) (ns pidx : Nat) (tag : Int) : Bool :=
  links.any (fun l =>
    decide (l.kind = .vlan ∧ l.Namespace = ns ∧ l.ParentIndex = pidx ∧ l.VlanId = tag))

/-- The link `LinkAdd` creates for the request `req` with parent `p`: a
request without MTU inherits the parent's, a VLAN inherits the parent's
hardware address and carries the id that was sent, a macvlan gets a hardware
address from the kernel. -/
def newLink (req p : Link) (idx : Nat) : Link :=
  { req with
    Index := idx
    MTU := if req.MTU = 0 then p.MTU else req.MTU
    HardwareAddr := if req.kind = .vlan then p.HardwareAddr else kernelHw idx
    up := false
    VlanId := if req.kind = .vlan then vlanTag req.VlanId else req.VlanId
    proxyArp := false }

/-- The call `netlink.LinkByName(name)`: looks in the caller's namespace; a
name of more than 15 bytes is refused before any lookup. -/
def LinkByName (name : String) (w : World) : Except String Link × World :=
  match popFault w with
  | (some e, w1) => (.error e, record (.linkByName w1.cur name (some e)) w1)
  | (none, w1) =>
    if nameTooLong name then (.error ERANGE, record (.linkByName w1.cur name (some ERANGE)) w1)
    else
      match findLink w1.links w1.cur name with
      | some l => (.ok l, record (.linkByName w1.cur name none) w1)
      | none =>
        (.error "Link not found", record (.linkByName w1.cur name (some "Link not found")) w1)

/-- What the kernel checks before it creates the link of the request `req`:
the name holds at most 15 bytes; the id of a VLAN, as it was sent, is below
4095; the parent is a link of the caller's namespace; the parent of a VLAN
carries no VLAN of that id yet; the name is free in `req.Namespace`.  The
result is the parent, or the error of the first check that fails. -/
def checkLinkAdd (req : Link) (w : World) : Except String Link :=
  if nameTooLong req.Name then .error ERANGE
  else if req.kind = .vlan ∧ 4095 ≤ vlanTag req.VlanId then .error ERANGE
  else
    match findIndex w.links w.cur req.ParentIndex with
    | none => .error "no such device"
    | some p =>
      if req.kind = .vlan ∧ vlanTaken w.links w.cur p.Index (vlanTag req.VlanId) = true then
        .error "file exists"
      else
        match findLink w.links req.Namespace req.Name with
        | some _ => .error "file exists"
        | none => .ok p

/-- The call `netlink.LinkAdd(req)`: the parent is resolved in the caller's
namespace, the link is created in `req.Namespace`. -/
def LinkAdd (req : Link) (w : World) : Option String × World :=
  match popFault w with
  | (some e, w1) => (some e, record (.linkAdd w1.cur req (some e)) w1)
  | (none, w1) =>
    match checkLinkAdd req w1 with
    | .error e => (some e, record (.linkAdd w1.cur req (some e)) w1)
    | .ok p =>
      (none, record (.linkAdd w1.cur req none)
        { w1 with links := w1.links ++ [newLink req p (freshIndex w1.links)] })

/-- The index `netlink` works with for a link object (its `ensureIndex`): the
index the object carries or, when it carries none, the index of the link of
the object's name in the caller's namespace, if there is one. -/
def ensureIndex (name : String) (index : Option Nat) (w : World) : Option Nat :=
  match index with
  | some i => some i
  | none => (findLink w.links w.cur name).map (fun l => l.Index)

/-- The call `netlink.LinkDel(mv)` for a link object with the name `name` and
the index `index`: the link that has the index of `ensureIndex` in the
caller's namespace is removed. -/
def LinkDel (name : String) (index : Option Nat) (w : World) : Option String × World :=
  match popFault w with
  | (some e, w1) => (some e, record (.linkDel w1.cur name (some e)) w1)
  | (none, w1) =>
    match ensureIndex name index w1 with
    | none => (some "no such device", record (.linkDel w1.cur name (some "no such device")) w1)
    | some idx =>
      match findIndex w1.links w1.cur idx with
      | none =>
        (some "no such device", record (.linkDel w1.cur name (some "no such device")) w1)
      | some _ =>
        (none, record (.linkDel w1.cur name none)
          { w1 with links :=
              w1.links.filter (fun l => !decide (l.Namespace = w1.cur ∧ l.Index = idx)) })

/-- Whether the link `x` is a VLAN whose parent is down: the kernel does not
set such a VLAN up. -/
def parentDown (links : List Link) (x : Link) : Bool :=
  match findIndex links x.Namespace x.ParentIndex with
  | some p => decide (x.kind = .vlan) && !p.up
  | none => false

/-- The call `netlink.LinkSetUp(l)`: addresses the link by its index. -/
def LinkSetUp (l : Link) (w : World) : Option String × World :=
  match popFault w with
  | (some e, w1) => (some e, record (.linkSetUp w1.cur l.Index (some e)) w1)
  | (none, w1) =>
    match findIndex w1.links w1.cur l.Index with
    | none =>
      (some "no such device", record (.linkSetUp w1.cur l.Index (some "no such device")) w1)
    | some x =>
      if parentDown w1.links x then
        (some "network is down", record (.linkSetUp w1.cur l.Index (some "network is down")) w1)
      else
        (none, record (.linkSetUp w1.cur l.Index none)
          { w1 with links :=
              updateIndex w1.links w1.cur l.Index (fun x => { x with up := true }) })

/-- The call `netlink.LinkSetName(l, name)`: the new name holds at most 15
bytes and must be free. -/
def LinkSetName (l : Link) (name : String) (w : World) : Option String × World :=
  match popFault w with
  | (some e, w1) => (some e, record (.linkSetName w1.cur l.Index name (some e)) w1)
  | (none, w1) =>
    if nameTooLong name then
      (some ERANGE, record (.linkSetName w1.cur l.Index name (some ERANGE)) w1)
    else
      match findIndex w1.links w1.cur l.Index with
      | none =>
        (some "no such device",
          record (.linkSetName w1.cur l.Index name (some "no such device")) w1)
      | some _ =>
        if l.Name = name then (none, record (.linkSetName w1.cur l.Index name none) w1)
        else
          match findLink w1.links w1.cur name with
          | some _ =>
            (some "file exists",
              record (.linkSetName w1.cur l.Index name (some "file exists")) w1)
          | none =>
            (none, record (.linkSetName w1.cur l.Index name none)
              { w1 with links :=
                  updateIndex w1.links w1.cur l.Index (fun x => { x with Name := name }) })

/-- The length of the hardware address of an Ethernet device (`ETH_ALEN`);
VLANs and macvlans are Ethernet devices. -/
def ETH_ALEN : Nat := 6

/-- The kernel's `is_valid_ether_addr`: not a multicast address, not zero. -/
def validEtherAddr (hw : List Nat) : Bool :=
  decide (hw.headD 0 % 2 = 0) && !(hw.all (fun b => decide (b = 0)))

/-- What the kernel checks before it writes the hardware address `hw` to the
link with index `idx`: the link is in the caller's namespace, `hw` has at
least the six bytes of the device's address, and the six bytes that the
kernel takes from it are a valid unicast address. -/
def checkHardwareAddr (idx : Nat) (hw : List Nat) (w : World) : Option String :=
  match findIndex w.links w.cur idx with
  | none => some "no such device"
  | some _ =>
    if hw.length < ETH_ALEN then some "invalid argument"
    else if !validEtherAddr (hw.take ETH_ALEN) then some "cannot assign requested address"
    else none

/-- The call `netlink.LinkSetHardwareAddr(l, hw)`: the kernel copies as many
bytes of `hw` as the address of the device has, the six of `ETH_ALEN`, and
drops the rest. -/
def LinkSetHardwareAddr (l : Link) (hw : List Nat) (w : World) : Option String × World :=
  match popFault w with
  | (some e, w1) => (some e, record (.linkSetHardwareAddr w1.cur l.Index hw (some e)) w1)
  | (none, w1) =>
    match checkHardwareAddr l.Index hw w1 with
    | some e => (some e, record (.linkSetHardwareAddr w1.cur l.Index hw (some e)) w1)
    | none =>
      (none, record (.linkSetHardwareAddr w1.cur l.Index hw none)
        { w1 with links :=
            updateIndex w1.links w1.cur l.Index (fun x => { x with HardwareAddr := hw.take 6 }) })

/-- The call `ip.RenameLink(old, new)`: `LinkByName(old)`, then `LinkSetName`. -/
def RenameLink (oldName newName : String) (w : World) : Option String × World :=
  match LinkByName oldName w with
  | (.error e, w1) => (some e, w1)
  | (.ok l, w1) => LinkSetName l newName w1

/-- The call `sysctl.Sysctl("net.ipv4.conf.<name>.proxy_arp", "1")`: the entry
exists only while an interface of that name is in the caller's namespace. -/
def SysctlProxyArp (name : String) (w : World) : Option String × World :=
  match popFault w with
  | (some e, w1) => (some e, record (.sysctl w1.cur (proxyArpSysctl name) "1" (some e)) w1)
  | (none, w1) =>
    match findLink w1.links w1.cur name with
    | none =>
      (some "no such file or directory",
        record (.sysctl w1.cur (proxyArpSysctl name) "1" (some "no such file or directory")) w1)
    | some l =>
      (none, record (.sysctl w1.cur (proxyArpSysctl name) "1" none)
        { w1 with links :=
            updateIndex w1.links w1.cur l.Index (fun x => { x with proxyArp := true }) })

/-- The call `netns.Do(f)`: switch the thread to the namespace, run `f`,
switch back.  When the switch fails `f` is not run and the error of the
switch, wrapped by `fail`, is the result. -/
def nsDo {ρ : Type} (netns : NetNS) (fail : String → ρ) (f : World → ρ × World)
    (w : World) : ρ × World :=
  match popFault w with
  | (some e, w1) => (fail e, record (.nsDo netns.id (some e)) w1)
  | (none, w1) =>
    match f { record (.nsDo netns.id none) w1 with cur := netns.id } with
    | (r, w2) => (r, { w2 with cur := w1.cur })

/-- The call `ipam.ConfigureIface(ifName, res)`, a black box: it succeeds
unless the fault script says otherwise. -/
def ConfigureIface (ifName : String) (res : Result) (w : World) : Option String × World :=
  match popFault w with
  | (r, w1) => (r, record (.configureIface w1.cur ifName res r) w1)

/-- The call `net.InterfaceByName(name)`: looks in the caller's namespace. -/
def InterfaceByName (name : String) (w : World) : Except String Link × World :=
  match popFault w with
  | (some e, w1) => (.error e, record (.interfaceByName w1.cur name (some e)) w1)
  | (none, w1) =>
    match findLink w1.links w1.cur name with
    | some l => (.ok l, record (.interfaceByName w1.cur name none) w1)
    | none =>
      (.error "route ip+net: no such network interface",
        record (.interfaceByName w1.cur name
          (some "route ip+net: no such network interface")) w1)

/-- The call `arping.GratuitousArpOverIface(ip, iface)`. -/
def GratuitousArpOverIface (ip : List Nat) (iface : Link) (w : World) : Option String × World :=
  match popFault w with
  | (r, w1) => (r, record (.gratuitousArp w1.cur ip iface.Name r) w1)

/-- The call `ip.RandomVethName()`, with its outcome `rnd`. -/
def RandomVethName (rnd : Except String String) (w : World) : Except String String × World :=
  match rnd with
  | .ok n => (.ok n, record (.randomVethName none) w)
  | .error e => (.error e, record (.randomVethName (some e)) w)

/-! ## Hardware addresses -/

/-- Value of a hexadecimal digit. -/
def hexVal (c : Char) : Option Nat :=
  if '0' ≤ c ∧ c ≤ '9' then some (c.toNat - '0'.toNat)
  else if 'a' ≤ c ∧ c ≤ 'f' then some (c.toNat - 'a'.toNat + 10)
  else if 'A' ≤ c ∧ c ≤ 'F' then some (c.toNat - 'A'.toNat + 10)
  else none

/-- Go's `xtoi2(s, e)`: the byte written by the first two characters of `s`,
which must be hexadecimal digits; a third character, if any, must be `e`. -/
def xtoi2 (s : List Char) (e : Char) : Option Nat :=
  match s with
  | a :: b :: rest =>
    match rest with
    | c :: _ =>
      if c ≠ e then none
      else
        match hexVal a, hexVal b with
        | some x, some y => some (16 * x + y)
        | _, _ => none
    | [] =>
      match hexVal a, hexVal b with
      | some x, some y => some (16 * x + y)
      | _, _ => none
  | _ => none

/-- The loop of `net.ParseMAC` over groups `xx<sep>`: `n` bytes, three
characters apart. -/
def parseBytes (sep : Char) : Nat → List Char → Option (List Nat)
  | 0, _ => some []
  | n + 1, s =>
    match xtoi2 s sep with
    | none => none
    | some b =>
      match parseBytes sep n (s.drop 3) with
      | none => none
      | some bs => some (b :: bs)

/-- The loop of `net.ParseMAC` over groups `xxxx.`: `n` pairs of bytes, five
characters apart. -/
def parseWords : Nat → List Char → Option (List Nat)
  | 0, _ => some []
  | n + 1, s =>
    match xtoi2 (s.take 2) (Char.ofNat 0), xtoi2 (s.drop 2) '.' with
    | some b1, some b2 =>
      match parseWords n (s.drop 5) with
      | none => none
      | some bs => some (b1 :: b2 :: bs)
    | _, _ => none

/-- Go's `net.ParseMAC`: 6, 8 or 20 bytes written `xx:xx:...`, `xx-xx-...` or
`xxxx.xxxx...`; `none` stands for the error "invalid MAC address". -/
def ParseMAC (mac : String) : Option (List Nat) :=
  let s := mac.data
  if s.length < 14 then none
  else if s.get? 2 = some ':' ∨ s.get? 2 = some '-' then
    if (s.length + 1) % 3 ≠ 0 then none
    else
      let n := (s.length + 1) / 3
      if n ≠ 6 ∧ n ≠ 8 ∧ n ≠ 20 then none
      else parseBytes (s.getD 2 ':') n s
  else if s.get? 4 = some '.' then
    if (s.length + 1) % 5 ≠ 0 then none
    else
      let n := 2 * (s.length + 1) / 5
      if n ≠ 6 ∧ n ≠ 8 ∧ n ≠ 20 then none
      else parseWords (n / 2) s
  else none

/-- The digit `hexDigit[n]` of Go's `net` package. -/
def hexDigit (n : Nat) : Char :=
  if n < 10 then Char.ofNat (48 + n) else Char.ofNat (87 + n)

/-- Go's `HardwareAddr.String()`: lower-case hexadecimal bytes joined by
colons, the empty string for an empty address. -/
def hwChars : List Nat → List Char
  | [] => []
  | [b] => [hexDigit (b / 16 % 16), hexDigit (b % 16)]
  | b :: b2 :: bs => hexDigit (b / 16 % 16) :: hexDigit (b % 16) :: ':' :: hwChars (b2 :: bs)

/-- Go's `HardwareAddr.String()`, as a string. -/
def hwString (hw : List Nat) : String :=
  String.mk (hwChars hw)

/-- Go's `%q` for a string without characters that need escaping. -/
def quoted (s : String) : String :=
  "\"" ++ s ++ "\""

/-! ## `ensureVlan` -/

/-- Lines 180-218 of `ensureVlan`: look the VLAN of `master` up, create it
when the lookup reports "not found". -/
def ensureVlanOn (master : String) (vlanID : Int) (w : World) : Except String Link × World :=
  let vlanLinkName := vlanName master vlanID
  match LinkByName vlanLinkName w with
  | (.ok vlanLink, w2) => (.ok vlanLink, w2)
  | (.error e2, w2) =>
    if !isNotFound e2 then (.error e2, w2)
    else
      match LinkByName master w2 with
      | (.error e3, w3) => (.error e3, w3)
      | (.ok m, w3) =>
        let vlan : Link :=
          { Name := vlanLinkName, Index := 0, ParentIndex := m.Index, MTU := 0,
            HardwareAddr := [], up := false, kind := .vlan, VlanId := vlanID,
            Namespace := w3.cur, proxyArp := false }
        match LinkAdd vlan w3 with
        | (some e4, w4) => (.error e4, w4)
        | (none, w4) =>
          match LinkByName vlanLinkName w4 with
          | (.error e5, w5) => (.error e5, w5)
          | (.ok result, w5) =>
            match LinkSetUp result w5 with
            | (some e6, w6) => (.error e6, w6)
            | (none, w6) => (.ok result, w6)

/-- The function `ensureVlan` of `main.go`: lines 172-178 choose the master
(`master2` when the lookup of `master` reports "not found"), the rest is
`ensureVlanOn`. -/
def ensureVlan (master master2 : String) (vlanID : Int) (w : World) :
    Except String Link × World :=
  match LinkByName master w with
  | (.ok _, w1) => ensureVlanOn master vlanID w1
  | (.error e, w1) =>
    if !isNotFound e then (.error e, w1)
    else ensureVlanOn master2 vlanID w1

/-! ## `createMacvlan` -/

/-- The closure `createMacvlan` hands to `netns.Do` (lines 264-303 of
`main.go`); it runs inside the target namespace.  `mvIndex` is the index the
link object `mv` carries since `LinkAdd`. -/
def createMacvlanInNs (tmpName : String) (mvIndex : Option Nat) (ifName : String)
    (netns : NetNS) (mac : String) (w : World) : Except String Interface × World :=
  match SysctlProxyArp tmpName w with
  | (some e, w1) =>
    -- remove the newly added link and ignore errors
    match LinkDel tmpName mvIndex w1 with
    | (_, w2) =>
      (.error ("failed to set proxy_arp on newly added interface " ++ quoted tmpName
        ++ ": " ++ e), w2)
  | (none, w1) =>
    match RenameLink tmpName ifName w1 with
    | (some e, w2) =>
      match LinkDel tmpName mvIndex w2 with
      | (_, w3) =>
        (.error ("failed to rename macvlan to " ++ quoted ifName ++ ": " ++ e), w3)
    | (none, w2) =>
      -- macvlan.Name = ifName; re-fetch macvlan to get all attributes
      match LinkByName ifName w2 with
      | (.error e, w3) =>
        (.error ("failed to refetch macvlan " ++ quoted ifName ++ ": " ++ e), w3)
      | (.ok contMacvlan, w3) =>
        if mac.length ≠ 0 then
          match ParseMAC mac with
          | none => (.error ("address " ++ mac ++ ": invalid MAC address"), w3)
          | some hardwareAddr =>
            match LinkSetHardwareAddr contMacvlan hardwareAddr w3 with
            | (some e, w4) => (.error ("failed to change macvlan mac: " ++ e), w4)
            | (none, w4) =>
              match LinkByName ifName w4 with
              | (.error e, w5) =>
                (.error ("failed to refetch macvlan " ++ quoted ifName ++ ": " ++ e), w5)
              | (.ok contMacvlan, w5) =>
                (.ok { Name := ifName, Mac := hwString contMacvlan.HardwareAddr,
                       Sandbox := netns.path }, w5)
        else
          (.ok { Name := ifName, Mac := hwString contMacvlan.HardwareAddr,
                 Sandbox := netns.path }, w3)

/-- The uplink of `createMacvlan` (lines 225-241): the VLAN of `ensureVlan`,
or, without VLAN, the first of the two masters that exists. -/
def resolveUplink (conf : netConf) (useVlan : Bool) (w : World) : Except String Link × World :=
  if useVlan then ensureVlan conf.Master conf.Master2 conf.VlanID w
  else
    match LinkByName conf.Master w with
    | (.ok m, w1) => (.ok m, w1)
    | (.error e, w1) =>
      if !isNotFound e then (.error e, w1)
      else LinkByName conf.Master2 w1

/-- The function `createMacvlan` of `main.go`; `rnd` is the outcome of its
call of `ip.RandomVethName()`.  A successful `netlink.LinkAdd(mv)` ends with
`ensureIndex` on `mv`, in the caller's namespace: `mv` carries an index from
then on only if a link of the temporary name lives there. -/
def createMacvlan (conf : netConf) (ifName : String) (netns : NetNS) (useVlan : Bool)
    (mac : String) (rnd : Except String String) (w : World) : Except String Interface × World :=
  match resolveUplink conf useVlan w with
  | (.error e, w1) => (.error e, w1)
  | (.ok m, w1) =>
    match RandomVethName rnd w1 with
    | (.error e, w2) => (.error e, w2)
    | (.ok tmpName, w2) =>
      let mv : Link :=
        { Name := tmpName, Index := 0, ParentIndex := m.Index, MTU := conf.MTU,
          HardwareAddr := [], up := false, kind := .macvlan, VlanId := 0,
          Namespace := netns.id, proxyArp := false }
      match LinkAdd mv w2 with
      | (some e, w3) => (.error ("failed to create macvlan: " ++ e), w3)
      | (none, w3) =>
        nsDo netns Except.error
          (createMacvlanInNs tmpName (ensureIndex tmpName none w3) ifName netns mac) w3

/-! ## `main` -/

/-- A container as `ContainerList` reports it: its identifier and the names
of its networks (`none` when `NetworkSettings` is nil). -/
structure Container where
  ID : String
  Networks : Option (List String)
  deriving DecidableEq, Repr

/-- What `os.Stat` followed by `os.IsNotExist` can tell. -/
inductive StatResult
  | present
  | notExist
  | otherError
  deriving DecidableEq, Repr

/-- Everything `main` learns from outside the kernel: the container runtime,
the checkpoint files, the namespaces behind paths, the random names. -/
structure Env where
  newClient : Option String
  containerList : Except String (List Container)
  stat : String → StatResult
  decode : String → Except String CheckPoint
  getNS : String → Except String NetNS
  randomVethName : String → Except String String

/-- How `main` ends. -/
inductive Exit
  | returned
  | panicked
  deriving DecidableEq, Repr

/-- How one round of the fix loop, or the restoration of addresses, ends. -/
inductive Outcome
  | ok
  | failed (e : String)
  | panicked
  deriving DecidableEq, Repr

/-- The path `fmt.Sprintf(CheckPointFile, id)`. -/
def checkPointFile (id : String) : String :=
  "/home/work/cni-plugins/checkpoints/" ++ id

/-- The configuration `cfg` built in the fix loop. -/
def cfg : netConf :=
  { Master := "bond4", Master2 := "eth0", VlanID := 3, Mode := "", MTU := 1500,
    IPAM := "", Token := "", LogDir := "", CheckDir := "" }

/-- The inventory loop of `main` (lines 84-94).  Container identifiers are
hexadecimal, so bytes and characters coincide; `c.ID[:12]` panics on a
shorter identifier, which is the result `none`. -/
def inventory (env : Env) : List Container → List String → List String → World →
    Option (List String × List String) × World
  | [], ids, errMsg, w => (some (ids, errMsg), w)
  | c :: cs, ids, errMsg, w =>
    match c.Networks with
    | none => inventory env cs ids errMsg w
    | some nets =>
      if nets.length ≠ 0 then
        if c.ID.length < 12 then (none, w)
        else
          let id := c.ID.take 12
          let ids := ids ++ [id]
          let file := checkPointFile id
          let w1 := record (.stat file) w
          if env.stat file = .notExist then inventory env cs ids (errMsg ++ [id]) w1
          else inventory env cs ids errMsg w1
      else inventory env cs ids errMsg w

/-- The loop of lines 142-145: every assignment is made to point at interface
0; a nil element panics (`none`). -/
def setInterfaceZero : List (Option IPConfig) → Option (List (Option IPConfig))
  | [] => some []
  | none :: _ => none
  | some ipc :: rest =>
    match setInterfaceZero rest with
    | none => none
    | some rest => some (some { ipc with Interface := some 0 } :: rest)

/-- The loop of lines 157-161: a gratuitous ARP for every IPv4 assignment,
whose outcome is dropped; a nil element panics. -/
def arpLoop (contVeth : Link) : List (Option IPConfig) → World → Outcome × World
  | [], w => (.ok, w)
  | none :: _, w => (.panicked, w)
  | some ipc :: rest, w =>
    if ipc.Version = "4" then
      match GratuitousArpOverIface ipc.Address.IP contVeth w with
      | (_, w1) => arpLoop contVeth rest w1
    else arpLoop contVeth rest w

/-- The closure of lines 147-163, run inside the container's namespace. -/
def restoreAddresses (ifname : String) (result : Result) (w : World) : Outcome × World :=
  match ConfigureIface ifname result w with
  | (some e, w1) => (.failed e, w1)
  | (none, w1) =>
    match InterfaceByName ifname w1 with
    | (.error e, w2) => (.failed ("failed to look up " ++ quoted ifname ++ ": " ++ e), w2)
    | (.ok contVeth, w2) => arpLoop contVeth result.IPs w2

/-- One round of the fix loop (lines 107-167) for the container `id`. -/
def fixOne (env : Env) (id : String) (w : World) : Outcome × World :=
  let file := checkPointFile id
  match env.decode file with
  | .error e => (.failed e, record (.readFile file (some e)) w)
  | .ok checkpoint =>
    let w1 := record (.readFile file none) w
    match env.getNS checkpoint.Netns with
    | .error e => (.failed e, record (.getNS checkpoint.Netns (some e)) w1)
    | .ok netns =>
      let w2 := record (.getNS checkpoint.Netns none) w1
      -- the argument `checkpoint.Result.Interfaces[0].Mac`
      match checkpoint.Result with
      | none => (.panicked, w2)
      | some result =>
        match result.Interfaces with
        | [] => (.panicked, w2)
        | none :: _ => (.panicked, w2)
        | some first :: _ =>
          match createMacvlan cfg checkpoint.Ifname netns true first.Mac
              (env.randomVethName id) w2 with
          | (.error e, w3) => (.failed e, w3)
          | (.ok macvlanInterface, w3) =>
            match setInterfaceZero result.IPs with
            | none => (.panicked, w3)
            | some ips =>
              nsDo netns Outcome.failed
                (restoreAddresses checkpoint.Ifname
                  { result with Interfaces := [some macvlanInterface], IPs := ips }) w3

/-- The fix loop of `main` (lines 106-168): a round that fails is followed by
the next one, a panic ends the program. -/
def fixLoop (env : Env) : List String → World → Exit × World
  | [], w => (.returned, w)
  | id :: ids, w =>
    match fixOne env id w with
    | (.panicked, w1) => (.panicked, w1)
    | (_, w1) => fixLoop env ids w1

/-- The function `main` of `main.go`, with the flags `check` and `fix`. -/
def main (env : Env) (check fix : Bool) (w : World) : Exit × World :=
  match env.newClient with
  | some _ => (.panicked, w)
  | none =>
    match env.containerList with
    | .error _ => (.panicked, w)
    | .ok containers =>
      match inventory env containers [] [] w with
      | (none, w1) => (.panicked, w1)
      | (some (ids, errMsg), w1) =>
        if check && errMsg.length ≠ 0 then
          (.returned, record (.print (String.intercalate "\n" errMsg
            ++ " \ncheckpoint file not exist, check it manually\n")) w1)
        else
          let w2 := record (.print "checkpoint files of containers are ok\n") w1
          if !fix then (.returned, w2)
          else fixLoop env ids w2

/-! ## Example data -/

/-- The secondary uplink `eth0` of the example host. -/
def exampleEth0 : Link :=
  { Name := "eth0", Index := 2, ParentIndex := 0, MTU := 1500,
    HardwareAddr := [0, 1, 2, 3, 4, 5], up := true, kind := .device, VlanId := 0,
    Namespace := 0, proxyArp := false }

/-- A host whose primary uplink `bond4` is absent and whose secondary uplink
`eth0` is present; no call fails for reasons outside the link table. -/
def exampleHost : World :=
  { links := [exampleEth0], cur := 0, faults := [], log := [] }

/-- The VLAN `eth0.3` as `ensureVlan` returns it on the example host. -/
def exampleVlan : Link :=
  { Name := "eth0.3", Index := 3, ParentIndex := 2, MTU := 1500,
    HardwareAddr := [0, 1, 2, 3, 4, 5], up := false, kind := .vlan, VlanId := 3,
    Namespace := 0, proxyArp := false }

/-- The network namespace of a container. -/
def exampleNs : NetNS :=
  { path := "/proc/123/ns/net", id := 7 }

/-- The assignments of Scenario A, with an IPv6 assignment added. -/
def exampleIPs : List IPConfig :=
  [{ Version := "4", Interface := some 0,
     Address := { IP := [10, 0, 0, 5], Mask := [255, 255, 255, 0] }, Gateway := [10, 0, 0, 1] },
   { Version := "6", Interface := some 1,
     Address := { IP := [253, 0, 0, 0, 0, 0, 0, 0, 0, 0, 0, 0, 0, 0, 0, 5],
                  Mask := [255, 255, 255, 255, 255, 255, 255, 255, 0, 0, 0, 0, 0, 0, 0, 0] },
     Gateway := [] }]

/-- The prior result of Scenario A. -/
def exampleResult : Result :=
  { CNIVersion := "0.3.1",
    Interfaces := [some { Name := "eth0", Mac := "aa:bb:cc:dd:ee:01", Sandbox := "" }],
    IPs := exampleIPs.map some,
    Routes := [] }

/-- The checkpoint of Scenario A. -/
def exampleCheckPoint : CheckPoint :=
  { Netns := "/proc/123/ns/net", Podname := "pod-a", Sandbox := "sandbox-a", Ifname := "eth0",
    Result := some exampleResult }

/-- A checkpoint file that holds only `netns` and `ifname`: it decodes
without error and leaves `Result` nil. -/
def exampleCheckPointNoResult : CheckPoint :=
  { Netns := "/proc/456/ns/net", Podname := "", Sandbox := "", Ifname := "eth0",
    Result := none }

/-- A checkpoint file whose result has an empty list of interfaces. -/
def exampleCheckPointNoInterface : CheckPoint :=
  { Netns := "/proc/456/ns/net", Podname := "", Sandbox := "", Ifname := "eth0",
    Result := some { exampleResult with Interfaces := [] } }

/-- Two running containers with networks, both with a checkpoint file; the
checkpoint of the first is `first`, that of the second is the one of
Scenario A. -/
def exampleEnv (first : CheckPoint) : Env :=
  { newClient := none
    containerList := .ok
      [{ ID := "aaaaaaaaaaaa0123456789", Networks := some ["bridge"] },
       { ID := "bbbbbbbbbbbb0123456789", Networks := some ["bridge"] }]
    stat := fun _ => .present
    decode := fun file =>
      if file = checkPointFile "aaaaaaaaaaaa" then .ok first else .ok exampleCheckPoint
    getNS := fun path => .ok { path := path, id := if path = "/proc/123/ns/net" then 7 else 8 }
    randomVethName := fun id =>
      if id = "aaaaaaaaaaaa" then .ok "veth0000000a" else .ok "veth0000000b" }

/-- The macvlan `eth0` inside the container's namespace. -/
def exampleMacvlan : Link :=
  { Name := "eth0", Index := 4, ParentIndex := 3, MTU := 1500,
    HardwareAddr := [170, 187, 204, 221, 238, 1], up := false, kind := .macvlan, VlanId := 0,
    Namespace := 7, proxyArp := true }

/-- The thread inside the container's namespace, after the macvlan was made.
The third call from here on fails: in the restoration of addresses that is
the first announcement, after `ConfigureIface` and the lookup of the
interface. -/
def exampleInside : World :=
  { links := [exampleEth0, exampleMacvlan], cur := 7,
    faults := [none, none, some "network is down"], log := [] }

/-! ## Auxiliary notions for the statements -/

/-- Calls `ensureVlan` makes: lookups by name, the creation of a VLAN,
setting a link up. -/
def Event.isUplinkCall : Event → Bool
  | .linkByName _ _ _ => true
  | .linkAdd _ req _ => decide (req.kind = .vlan)
  | .linkSetUp _ _ _ => true
  | _ => false

/-- The gratuitous ARP announcements a log records, in order: the address
announced and the interface it was sent over. -/
def arpTargets : List Event → List (List Nat × String)
  | [] => []
  | .gratuitousArp _ ip ifName _ :: rest => (ip, ifName) :: arpTargets rest
  | _ :: rest => arpTargets rest

/-- A container that has network attachments (the test of line 85). -/
def networked (c : Container) : Bool :=
  match c.Networks with
  | some nets => decide (nets.length ≠ 0)
  | none => false

/-- The identifiers of the networked containers, as `main` shortens them. -/
def networkedIds (containers : List Container) : List String :=
  (containers.filter networked).map (fun c => c.ID.take 12)

/-- The identifiers of the networked containers that lack a checkpoint file. -/
def missingIds (env : Env) (containers : List Container) : List String :=
  (networkedIds containers).filter (fun id => decide (env.stat (checkPointFile id) = .notExist))

/-- Calls of the repair phase: everything but the `os.Stat` of the inventory
and output on standard output. -/
def Event.isRepairCall : Event → Bool
  | .print _ => false
  | .stat _ => false
  | _ => true

/-- Calls that write a hardware address. -/
def Event.isSetHardwareAddr : Event → Bool
  | .linkSetHardwareAddr _ _ _ _ => true
  | _ => false

/-- The error a recorded call returned, if it failed. -/
def Event.err : Event → Option String
  | .print _ => none
  | .stat _ => none
  | .readFile _ e => e
  | .getNS _ e => e
  | .randomVethName e => e
  | .linkByName _ _ e => e
  | .linkAdd _ _ e => e
  | .linkDel _ _ e => e
  | .linkSetUp _ _ e => e
  | .linkSetName _ _ _ e => e
  | .linkSetHardwareAddr _ _ _ e => e
  | .sysctl _ _ _ e => e
  | .nsDo _ e => e
  | .configureIface _ _ _ e => e
  | .interfaceByName _ _ e => e
  | .gratuitousArp _ _ _ e => e

/-- The calls among `evs` that returned an error, in order. -/
def failedCalls (evs : List Event) : List Event :=
  evs.filter (fun ev => (Event.err ev).isSome)

/-- The log of `w2` is the log of `w1` followed by calls that satisfy `P`. -/
def LogExt (P : Event → Prop) (w1 w2 : World) : Prop :=
  ∃ evs, w2.log = w1.log ++ evs ∧ ∀ ev ∈ evs, P ev

/-- The calls made from `w1` to `w2`: what the log of `w2` holds beyond the
log of `w1`. -/
def callsSince (w1 w2 : World) : List Event :=
  w2.log.drop w1.log.length

/-- No call fails for a reason outside the link table: the fault script holds
no failure. -/
def NoFaults (w : World) : Prop :=
  ∀ f ∈ w.faults, f = none

/-- The error a call returned, as the log keeps it. -/
def errOf {α : Type} : Except String α → Option String
  | .ok _ => none
  | .error e => some e

/-! # Theorems -/

/-! ## Facts about the kernel model -/

@[simp] theorem record_links (ev : Event) (w : World) : (record ev w).links = w.links := rfl
@[simp] theorem record_cur (ev : Event) (w : World) : (record ev w).cur = w.cur := rfl
@[simp] theorem record_faults (ev : Event) (w : World) : (record ev w).faults = w.faults := rfl
@[simp] theorem record_log (ev : Event) (w : World) : (record ev w).log = w.log ++ [ev] := rfl

theorem vlanTag_of_lt {v : Int} (h0 : 0 ≤ v) (h1 : v < 65536) : vlanTag v = v := by
  unfold vlanTag
  omega

theorem LinkByName_spec {name : String} {w w' : World} {r : Except String Link}
    (h : LinkByName name w = (r, w')) :
    w'.links = w.links ∧ w'.cur = w.cur ∧ w'.faults = w.faults.tail ∧
    w'.log = w.log ++ [.linkByName w.cur name (errOf r)] ∧
    (∀ l, r = .ok l → findLink w.links w.cur name = some l) := by
  unfold LinkByName popFault at h
  split at h
  · rename_i e w1 hp
    simp only [Prod.mk.injEq] at hp h
    obtain ⟨h1, rfl⟩ := hp
    obtain ⟨rfl, rfl⟩ := h
    exact ⟨rfl, rfl, rfl, rfl, (by simp)⟩
  · rename_i w1 hp
    simp only [Prod.mk.injEq] at hp
    obtain ⟨h1, rfl⟩ := hp
    split at h
    · simp only [Prod.mk.injEq] at h
      obtain ⟨rfl, rfl⟩ := h
      exact ⟨rfl, rfl, rfl, rfl, (by simp)⟩
    · split at h
      · rename_i l hl
        simp only [Prod.mk.injEq] at h
        obtain ⟨rfl, rfl⟩ := h
        exact ⟨rfl, rfl, rfl, rfl, fun l hl' => by cases hl'; exact hl⟩
      · simp only [Prod.mk.injEq] at h
        obtain ⟨rfl, rfl⟩ := h
        exact ⟨rfl, rfl, rfl, rfl, (by simp)⟩

/-- How a lookup that no fault hits comes out: the name is too long, or the
link table decides. -/
theorem LinkByName_cases {name : String} {w w' : World} {r : Except String Link}
    (hf : w.faults.headD none = none) (h : LinkByName name w = (r, w')) :
    (nameTooLong name = true ∧ r = .error ERANGE) ∨
    (nameTooLong name = false ∧
      ((∃ l, findLink w.links w.cur name = some l ∧ r = .ok l) ∨
        (findLink w.links w.cur name = none ∧ r = .error "Link not found"))) := by
  unfold LinkByName popFault at h
  rw [hf] at h
  simp only at h
  split at h
  · rename_i hlong
    simp only [Prod.mk.injEq] at h
    exact Or.inl ⟨hlong, h.1.symm⟩
  · rename_i hlong
    refine Or.inr ⟨by simpa using hlong, ?_⟩
    split at h
    · rename_i l hl
      simp only [Prod.mk.injEq] at h
      exact Or.inl ⟨l, hl, h.1.symm⟩
    · rename_i hl
      simp only [Prod.mk.injEq] at h
      exact Or.inr ⟨hl, h.1.symm⟩

/-- What a request that passes the checks of `LinkAdd` satisfies. -/
theorem checkLinkAdd_ok {req p : Link} {w : World} (h : checkLinkAdd req w = .ok p) :
    findIndex w.links w.cur req.ParentIndex = some p ∧
    findLink w.links req.Namespace req.Name = none ∧
    nameTooLong req.Name = false ∧
    (req.kind = .vlan → vlanTag req.VlanId < 4095 ∧
      vlanTaken w.links w.cur p.Index (vlanTag req.VlanId) = false) := by
  unfold checkLinkAdd at h
  split at h
  · cases h
  · rename_i hlong
    split at h
    · cases h
    · rename_i hrange
      split at h
      · cases h
      · rename_i q hq
        split at h
        · cases h
        · rename_i hdup
          split at h
          · cases h
          · rename_i hfree
            cases h
            refine ⟨hq, hfree, by simpa using hlong, fun hk => ⟨?_, ?_⟩⟩
            · have : ¬ (4095 ≤ vlanTag req.VlanId) := fun h4 => hrange ⟨hk, h4⟩
              omega
            · have : ¬ (vlanTaken w.links w.cur p.Index (vlanTag req.VlanId) = true) :=
                fun h4 => hdup ⟨hk, h4⟩
              simpa using this

theorem LinkAdd_spec {req : Link} {w w' : World} {r : Option String}
    (h : LinkAdd req w = (r, w')) :
    w'.cur = w.cur ∧ w'.faults = w.faults.tail ∧
    w'.log = w.log ++ [.linkAdd w.cur req r] ∧
    (r = none → ∃ p, findIndex w.links w.cur req.ParentIndex = some p ∧
      findLink w.links req.Namespace req.Name = none ∧
      w'.links = w.links ++ [newLink req p (freshIndex w.links)]) ∧
    (r ≠ none → w'.links = w.links) := by
  unfold LinkAdd popFault at h
  split at h
  · rename_i e w1 hp
    simp only [Prod.mk.injEq] at hp h
    obtain ⟨h1, rfl⟩ := hp
    obtain ⟨rfl, rfl⟩ := h
    exact ⟨rfl, rfl, rfl, (by simp), fun _ => rfl⟩
  · rename_i w1 hp
    simp only [Prod.mk.injEq] at hp
    obtain ⟨h1, rfl⟩ := hp
    split at h
    · simp only [Prod.mk.injEq] at h
      obtain ⟨rfl, rfl⟩ := h
      exact ⟨rfl, rfl, rfl, (by simp), fun _ => rfl⟩
    · rename_i p hp
      obtain ⟨hp1, hp2, -⟩ := checkLinkAdd_ok hp
      simp only [Prod.mk.injEq] at h
      obtain ⟨rfl, rfl⟩ := h
      exact ⟨rfl, rfl, rfl, fun _ => ⟨p, hp1, hp2, rfl⟩, fun h => absurd rfl h⟩

/-- A creation that succeeded passed the checks on the name and on the id. -/
theorem LinkAdd_checked {req : Link} {w w' : World} (h : LinkAdd req w = (none, w')) :
    nameTooLong req.Name = false ∧
    (req.kind = .vlan → vlanTag req.VlanId < 4095 ∧
      ∀ p, findIndex w.links w.cur req.ParentIndex = some p →
        vlanTaken w.links w.cur p.Index (vlanTag req.VlanId) = false) := by
  unfold LinkAdd popFault at h
  split at h
  · cases h
  · rename_i w1 hp
    simp only [Prod.mk.injEq] at hp
    obtain ⟨-, rfl⟩ := hp
    split at h
    · cases h
    · rename_i p hp
      obtain ⟨hp1, -, hp3, hp4⟩ := checkLinkAdd_ok hp
      refine ⟨hp3, fun hk => ⟨(hp4 hk).1, fun q hq => ?_⟩⟩
      simp only at hp1
      rw [hp1] at hq
      cases hq
      exact (hp4 hk).2

theorem LinkDel_spec {name : String} {index : Option Nat} {w w' : World} {r : Option String}
    (h : LinkDel name index w = (r, w')) :
    w'.cur = w.cur ∧ w'.faults = w.faults.tail ∧
    w'.log = w.log ++ [.linkDel w.cur name r] ∧
    (r = none → ∃ idx, ensureIndex name index { w with faults := w.faults.tail } = some idx ∧
      w'.links = w.links.filter (fun l => !decide (l.Namespace = w.cur ∧ l.Index = idx))) ∧
    (r ≠ none → w'.links = w.links) := by
  unfold LinkDel popFault at h
  split at h
  · rename_i e w1 hp
    simp only [Prod.mk.injEq] at hp h
    obtain ⟨h1, rfl⟩ := hp
    obtain ⟨rfl, rfl⟩ := h
    exact ⟨rfl, rfl, rfl, (by simp), fun _ => rfl⟩
  · rename_i w1 hp
    simp only [Prod.mk.injEq] at hp
    obtain ⟨h1, rfl⟩ := hp
    split at h
    · simp only [Prod.mk.injEq] at h
      obtain ⟨rfl, rfl⟩ := h
      exact ⟨rfl, rfl, rfl, (by simp), fun _ => rfl⟩
    · rename_i idx hidx
      split at h
      · simp only [Prod.mk.injEq] at h
        obtain ⟨rfl, rfl⟩ := h
        exact ⟨rfl, rfl, rfl, (by simp), fun _ => rfl⟩
      · simp only [Prod.mk.injEq] at h
        obtain ⟨rfl, rfl⟩ := h
        exact ⟨rfl, rfl, rfl, fun _ => ⟨idx, hidx, rfl⟩, fun h => absurd rfl h⟩

theorem LinkSetUp_spec {l : Link} {w w' : World} {r : Option String}
    (h : LinkSetUp l w = (r, w')) :
    w'.cur = w.cur ∧ w'.faults = w.faults.tail ∧
    w'.log = w.log ++ [.linkSetUp w.cur l.Index r] ∧
    (r = none → w'.links = updateIndex w.links w.cur l.Index (fun x => { x with up := true })) ∧
    (r ≠ none → w'.links = w.links) := by
  unfold LinkSetUp popFault at h
  split at h
  · rename_i e w1 hp
    simp only [Prod.mk.injEq] at hp h
    obtain ⟨h1, rfl⟩ := hp
    obtain ⟨rfl, rfl⟩ := h
    exact ⟨rfl, rfl, rfl, (by simp), fun _ => rfl⟩
  · rename_i w1 hp
    simp only [Prod.mk.injEq] at hp
    obtain ⟨h1, rfl⟩ := hp
    split at h
    · simp only [Prod.mk.injEq] at h
      obtain ⟨rfl, rfl⟩ := h
      exact ⟨rfl, rfl, rfl, (by simp), fun _ => rfl⟩
    · split at h
      · simp only [Prod.mk.injEq] at h
        obtain ⟨rfl, rfl⟩ := h
        exact ⟨rfl, rfl, rfl, (by simp), fun _ => rfl⟩
      · simp only [Prod.mk.injEq] at h
        obtain ⟨rfl, rfl⟩ := h
        exact ⟨rfl, rfl, rfl, fun _ => rfl, fun h => absurd rfl h⟩

theorem LinkSetHardwareAddr_spec {l : Link} {hw : List Nat} {w w' : World} {r : Option String}
    (h : LinkSetHardwareAddr l hw w = (r, w')) :
    w'.cur = w.cur ∧ w'.faults = w.faults.tail ∧
    w'.log = w.log ++ [.linkSetHardwareAddr w.cur l.Index hw r] ∧
    (r = none →
      w'.links = updateIndex w.links w.cur l.Index
        (fun x => { x with HardwareAddr := hw.take 6 })) ∧
    (r ≠ none → w'.links = w.links) := by
  unfold LinkSetHardwareAddr popFault at h
  split at h
  · rename_i e w1 hp
    simp only [Prod.mk.injEq] at hp h
    obtain ⟨h1, rfl⟩ := hp
    obtain ⟨rfl, rfl⟩ := h
    exact ⟨rfl, rfl, rfl, (by simp), fun _ => rfl⟩
  · rename_i w1 hp
    simp only [Prod.mk.injEq] at hp
    obtain ⟨h1, rfl⟩ := hp
    split at h
    · simp only [Prod.mk.injEq] at h
      obtain ⟨rfl, rfl⟩ := h
      exact ⟨rfl, rfl, rfl, (by simp), fun _ => rfl⟩
    · simp only [Prod.mk.injEq] at h
      obtain ⟨rfl, rfl⟩ := h
      exact ⟨rfl, rfl, rfl, fun _ => rfl, fun h => absurd rfl h⟩

theorem SysctlProxyArp_spec {name : String} {w w' : World} {r : Option String}
    (h : SysctlProxyArp name w = (r, w')) :
    w'.cur = w.cur ∧ w'.faults = w.faults.tail ∧
    w'.log = w.log ++ [.sysctl w.cur (proxyArpSysctl name) "1" r] ∧
    (r = none → ∃ l, findLink w.links w.cur name = some l ∧
      w'.links = updateIndex w.links w.cur l.Index (fun x => { x with proxyArp := true })) ∧
    (r ≠ none → w'.links = w.links) := by
  unfold SysctlProxyArp popFault at h
  split at h
  · rename_i e w1 hp
    simp only [Prod.mk.injEq] at hp h
    obtain ⟨h1, rfl⟩ := hp
    obtain ⟨rfl, rfl⟩ := h
    exact ⟨rfl, rfl, rfl, (by simp), fun _ => rfl⟩
  · rename_i w1 hp
    simp only [Prod.mk.injEq] at hp
    obtain ⟨h1, rfl⟩ := hp
    split at h
    · simp only [Prod.mk.injEq] at h
      obtain ⟨rfl, rfl⟩ := h
      exact ⟨rfl, rfl, rfl, (by simp), fun _ => rfl⟩
    · rename_i l hl
      simp only [Prod.mk.injEq] at h
      obtain ⟨rfl, rfl⟩ := h
      exact ⟨rfl, rfl, rfl, fun _ => ⟨l, hl, rfl⟩, fun h => absurd rfl h⟩

theorem LinkSetName_spec {l : Link} {name : String} {w w' : World} {r : Option String}
    (h : LinkSetName l name w = (r, w')) :
    w'.cur = w.cur ∧ w'.faults = w.faults.tail ∧
    w'.log = w.log ++ [.linkSetName w.cur l.Index name r] ∧
    (r = none → (l.Name = name ∧ w'.links = w.links) ∨
      (l.Name ≠ name ∧ findLink w.links w.cur name = none ∧
        w'.links = updateIndex w.links w.cur l.Index (fun x => { x with Name := name }))) ∧
    (r ≠ none → w'.links = w.links) := by
  unfold LinkSetName popFault at h
  split at h
  · rename_i e w1 hp
    simp only [Prod.mk.injEq] at hp h
    obtain ⟨h1, rfl⟩ := hp
    obtain ⟨rfl, rfl⟩ := h
    exact ⟨rfl, rfl, rfl, (by simp), fun _ => rfl⟩
  · rename_i w1 hp
    simp only [Prod.mk.injEq] at hp
    obtain ⟨h1, rfl⟩ := hp
    split at h
    · simp only [Prod.mk.injEq] at h
      obtain ⟨rfl, rfl⟩ := h
      exact ⟨rfl, rfl, rfl, (by simp), fun _ => rfl⟩
    · split at h
      · simp only [Prod.mk.injEq] at h
        obtain ⟨rfl, rfl⟩ := h
        exact ⟨rfl, rfl, rfl, (by simp), fun _ => rfl⟩
      · split at h
        · rename_i hn
          simp only [Prod.mk.injEq] at h
          obtain ⟨rfl, rfl⟩ := h
          exact ⟨rfl, rfl, rfl, fun _ => Or.inl ⟨hn, rfl⟩, fun h => absurd rfl h⟩
        · rename_i hn
          split at h
          · simp only [Prod.mk.injEq] at h
            obtain ⟨rfl, rfl⟩ := h
            exact ⟨rfl, rfl, rfl, (by simp), fun _ => rfl⟩
          · rename_i hf
            simp only [Prod.mk.injEq] at h
            obtain ⟨rfl, rfl⟩ := h
            exact ⟨rfl, rfl, rfl, fun _ => Or.inr ⟨hn, hf, rfl⟩, fun h => absurd rfl h⟩

theorem index_lt_freshIndex (links : List Link) (l : Link) (h : l ∈ links) :
    l.Index < freshIndex links := by
  unfold freshIndex
  induction links with
  | nil => cases h
  | cons a t ih =>
    simp only [List.map_cons, List.foldr_cons]
    rcases List.mem_cons.1 h with rfl | h
    · omega
    · have := ih h
      omega

theorem updateIndex_fresh (links : List Link) (ns : Nat) (f : Link → Link) :
    updateIndex links ns (freshIndex links) f = links := by
  unfold updateIndex
  conv_rhs => rw [← List.map_id links]
  apply List.map_congr_left
  intro l hl
  have := index_lt_freshIndex links l hl
  simp; intro _ h; omega

theorem updateIndex_append (a b : List Link) (ns idx : Nat) (f : Link → Link) :
    updateIndex (a ++ b) ns idx f = updateIndex a ns idx f ++ updateIndex b ns idx f := by
  simp [updateIndex]

theorem findLink_append (a b : List Link) (ns : Nat) (name : String) :
    findLink (a ++ b) ns name = (findLink a ns name).or (findLink b ns name) := by
  simp [findLink, List.find?_append]

theorem findLink_single (l : Link) (ns : Nat) (name : String) :
    findLink [l] ns name = if l.Namespace = ns ∧ l.Name = name then some l else none := by
  unfold findLink
  by_cases h : l.Namespace = ns ∧ l.Name = name <;> simp [List.find?, h]

/-! ## `ensureVlan`: what any run leaves behind -/

theorem ensureVlanOn_spec {master : String} {v : Int} {w w' : World} {r : Except String Link}
    (h : ensureVlanOn master v w = (r, w')) :
    w'.cur = w.cur ∧
    (∃ evs, w'.log = w.log ++ evs ∧ ∀ ev ∈ evs, ev.isUplinkCall = true) ∧
    (w'.links = w.links ∨
      ∃ l, l.kind = .vlan ∧ l.VlanId = vlanTag v ∧ l.Namespace = w.cur ∧
        l.Name = vlanName master v ∧ w'.links = w.links ++ [l]) := by
  unfold ensureVlanOn at h
  dsimp only at h
  split at h
  · rename_i vlanLink w2 h2
    obtain ⟨hl2, hc2, -, hg2, -⟩ := LinkByName_spec h2
    simp only [Prod.mk.injEq] at h
    obtain ⟨rfl, rfl⟩ := h
    exact ⟨hc2, ⟨_, hg2, by simp [Event.isUplinkCall]⟩, Or.inl hl2⟩
  · rename_i e2 w2 h2
    obtain ⟨hl2, hc2, -, hg2, -⟩ := LinkByName_spec h2
    split at h
    · simp only [Prod.mk.injEq] at h
      obtain ⟨rfl, rfl⟩ := h
      exact ⟨hc2, ⟨_, hg2, by simp [Event.isUplinkCall]⟩, Or.inl hl2⟩
    · split at h
      · rename_i e3 w3 h3
        obtain ⟨hl3, hc3, -, hg3, -⟩ := LinkByName_spec h3
        simp only [Prod.mk.injEq] at h
        obtain ⟨rfl, rfl⟩ := h
        refine ⟨by rw [hc3, hc2], ⟨_, by rw [hg3, hg2, List.append_assoc], ?_⟩,
          Or.inl (by rw [hl3, hl2])⟩
        simp [Event.isUplinkCall]
      · rename_i m w3 h3
        obtain ⟨hl3, hc3, -, hg3, -⟩ := LinkByName_spec h3
        split at h
        · rename_i e4 w4 h4
          obtain ⟨hc4, -, hg4, -, herr4⟩ := LinkAdd_spec h4
          simp only [Prod.mk.injEq] at h
          obtain ⟨rfl, rfl⟩ := h
          refine ⟨by rw [hc4, hc3, hc2],
            ⟨_, by rw [hg4, hg3, hg2, List.append_assoc, List.append_assoc], ?_⟩,
            Or.inl (by rw [herr4 (by simp), hl3, hl2])⟩
          simp [Event.isUplinkCall]
        · rename_i w4 h4
          obtain ⟨hc4, -, hg4, hok4, -⟩ := LinkAdd_spec h4
          obtain ⟨p, -, hfree, hl4⟩ := hok4 rfl
          simp only at hfree
          rw [hl3, hl2] at hfree hl4
          rw [hc3, hc2] at hfree
          have hlog4 : ∃ evs, w4.log = w.log ++ evs ∧ ∀ ev ∈ evs, ev.isUplinkCall = true :=
            ⟨_, by rw [hg4, hg3, hg2, List.append_assoc, List.append_assoc],
              by simp [Event.isUplinkCall]⟩
          obtain ⟨evs4, hlog4, hev4⟩ := hlog4
          generalize hnl : newLink _ p (freshIndex w.links) = nl at hl4
          have hnl1 : nl.kind = .vlan ∧ nl.VlanId = vlanTag v ∧ nl.Namespace = w.cur ∧
              nl.Name = vlanName master v ∧ nl.Index = freshIndex w.links := by
            subst hnl; simp [newLink, hc3, hc2]
          obtain ⟨hk, hv, hns, hnm, hidx⟩ := hnl1
          split at h
          · rename_i e5 w5 h5
            obtain ⟨hl5, hc5, -, hg5, -⟩ := LinkByName_spec h5
            simp only [Prod.mk.injEq] at h
            obtain ⟨rfl, rfl⟩ := h
            refine ⟨by rw [hc5, hc4, hc3, hc2],
              ⟨_, by rw [hg5, hlog4, List.append_assoc], ?_⟩,
              Or.inr ⟨nl, hk, hv, hns, hnm, by rw [hl5, hl4]⟩⟩
            intro ev hev
            rcases List.mem_append.1 hev with hev | hev
            · exact hev4 ev hev
            · simp at hev; subst hev; rfl
          · rename_i result w5 h5
            obtain ⟨hl5, hc5, -, hg5, hf5⟩ := LinkByName_spec h5
            have hres := hf5 result rfl
            rw [hl4, hc4, hc3, hc2, findLink_append, hfree, findLink_single] at hres
            simp only [Option.none_or] at hres
            rw [if_pos ⟨hns, hnm⟩] at hres
            cases hres
            have hlog5 : ∃ evs, w5.log = w.log ++ evs ∧ ∀ ev ∈ evs, ev.isUplinkCall = true := by
              refine ⟨_, by rw [hg5, hlog4, List.append_assoc], ?_⟩
              intro ev hev
              rcases List.mem_append.1 hev with hev | hev
              · exact hev4 ev hev
              · simp at hev; subst hev; rfl
            obtain ⟨evs5, hlog5, hev5⟩ := hlog5
            split at h
            · rename_i e6 w6 h6
              obtain ⟨hc6, -, hg6, -, herr6⟩ := LinkSetUp_spec h6
              simp only [Prod.mk.injEq] at h
              obtain ⟨rfl, rfl⟩ := h
              refine ⟨by rw [hc6, hc5, hc4, hc3, hc2],
                ⟨_, by rw [hg6, hlog5, List.append_assoc], ?_⟩,
                Or.inr ⟨nl, hk, hv, hns, hnm, by rw [herr6 (by simp), hl5, hl4]⟩⟩
              intro ev hev
              rcases List.mem_append.1 hev with hev | hev
              · exact hev5 ev hev
              · simp at hev; subst hev; rfl
            · rename_i w6 h6
              obtain ⟨hc6, -, hg6, hok6, -⟩ := LinkSetUp_spec h6
              simp only [Prod.mk.injEq] at h
              obtain ⟨rfl, rfl⟩ := h
              have hl6 := hok6 rfl
              rw [hl5, hl4, updateIndex_append, hidx, updateIndex_fresh] at hl6
              refine ⟨by rw [hc6, hc5, hc4, hc3, hc2],
                ⟨_, by rw [hg6, hlog5, List.append_assoc], ?_⟩,
                Or.inr ⟨{ nl with up := true }, hk, hv, hns, hnm, ?_⟩⟩
              · intro ev hev
                rcases List.mem_append.1 hev with hev | hev
                · exact hev5 ev hev
                · simp at hev; subst hev; rfl
              · rw [hl6]
                simp [updateIndex, hns, hidx, hc5, hc4, hc3, hc2]

theorem ensureVlan_spec {master master2 : String} {v : Int} {w w' : World}
    {r : Except String Link} (h : ensureVlan master master2 v w = (r, w')) :
    w'.cur = w.cur ∧
    (∃ evs, w'.log = w.log ++ evs ∧ ∀ ev ∈ evs, ev.isUplinkCall = true) ∧
    (w'.links = w.links ∨
      ∃ l, l.kind = .vlan ∧ l.VlanId = vlanTag v ∧ l.Namespace = w.cur ∧
        (l.Name = vlanName master v ∨ l.Name = vlanName master2 v) ∧
        w'.links = w.links ++ [l]) := by
  unfold ensureVlan at h
  split at h
  · rename_i m w1 h1
    obtain ⟨hl1, hc1, -, hg1, -⟩ := LinkByName_spec h1
    obtain ⟨hc, ⟨evs, hg, hev⟩, hl⟩ := ensureVlanOn_spec h
    refine ⟨by rw [hc, hc1], ⟨_, by rw [hg, hg1, List.append_assoc], ?_⟩, ?_⟩
    · intro ev hev'
      rcases List.mem_append.1 hev' with hev' | hev'
      · simp at hev'; subst hev'; rfl
      · exact hev ev hev'
    · rcases hl with hl | ⟨l, hk, hv, hns, hnm, hl⟩
      · exact Or.inl (by rw [hl, hl1])
      · exact Or.inr ⟨l, hk, hv, by rw [hns, hc1], Or.inl hnm, by rw [hl, hl1]⟩
  · rename_i e w1 h1
    obtain ⟨hl1, hc1, -, hg1, -⟩ := LinkByName_spec h1
    split at h
    · simp only [Prod.mk.injEq] at h
      obtain ⟨rfl, rfl⟩ := h
      exact ⟨hc1, ⟨_, hg1, by simp [Event.isUplinkCall]⟩, Or.inl hl1⟩
    · obtain ⟨hc, ⟨evs, hg, hev⟩, hl⟩ := ensureVlanOn_spec h
      refine ⟨by rw [hc, hc1], ⟨_, by rw [hg, hg1, List.append_assoc], ?_⟩, ?_⟩
      · intro ev hev'
        rcases List.mem_append.1 hev' with hev' | hev'
        · simp at hev'; subst hev'; rfl
        · exact hev ev hev'
      · rcases hl with hl | ⟨l, hk, hv, hns, hnm, hl⟩
        · exact Or.inl (by rw [hl, hl1])
        · exact Or.inr ⟨l, hk, hv, by rw [hns, hc1], Or.inr hnm, by rw [hl, hl1]⟩

theorem resolveUplink_spec {conf : netConf} {useVlan : Bool} {w w' : World}
    {r : Except String Link} (h : resolveUplink conf useVlan w = (r, w')) :
    w'.cur = w.cur ∧
    (∃ evs, w'.log = w.log ++ evs ∧ ∀ ev ∈ evs, ev.isUplinkCall = true) ∧
    (w'.links = w.links ∨
      ∃ l, useVlan = true ∧ l.kind = .vlan ∧ l.VlanId = vlanTag conf.VlanID ∧
        l.Namespace = w.cur ∧
        (l.Name = vlanName conf.Master conf.VlanID ∨ l.Name = vlanName conf.Master2 conf.VlanID) ∧
        w'.links = w.links ++ [l]) := by
  unfold resolveUplink at h
  split at h
  · rename_i hu
    obtain ⟨hc, hg, hl⟩ := ensureVlan_spec h
    refine ⟨hc, hg, ?_⟩
    rcases hl with hl | ⟨l, hk, hv, hns, hnm, hl⟩
    · exact Or.inl hl
    · exact Or.inr ⟨l, hu, hk, hv, hns, hnm, hl⟩
  · split at h
    · rename_i m w1 h1
      obtain ⟨hl1, hc1, -, hg1, -⟩ := LinkByName_spec h1
      simp only [Prod.mk.injEq] at h
      obtain ⟨rfl, rfl⟩ := h
      exact ⟨hc1, ⟨_, hg1, by simp [Event.isUplinkCall]⟩, Or.inl hl1⟩
    · rename_i e w1 h1
      obtain ⟨hl1, hc1, -, hg1, -⟩ := LinkByName_spec h1
      split at h
      · simp only [Prod.mk.injEq] at h
        obtain ⟨rfl, rfl⟩ := h
        exact ⟨hc1, ⟨_, hg1, by simp [Event.isUplinkCall]⟩, Or.inl hl1⟩
      · obtain ⟨hl2, hc2, -, hg2, -⟩ := LinkByName_spec h
        exact ⟨by rw [hc2, hc1], ⟨_, by rw [hg2, hg1, List.append_assoc],
          by simp [Event.isUplinkCall]⟩, Or.inl (by rw [hl2, hl1])⟩

/-! ## `createMacvlan`: failures before the macvlan is created -/

/-- C10, counterexample: on the example host `ensureVlan` creates the VLAN
`eth0.3`, then the generation of the temporary name fails; `createMacvlan`
fails before any macvlan is created, yet the link table has grown. -/
theorem createMacvlan_early_failure_counterexample :
    errOf (createMacvlan cfg "eth0" exampleNs true "" (.error "rand") exampleHost).1
      = some "rand" ∧
    (createMacvlan cfg "eth0" exampleNs true "" (.error "rand") exampleHost).2.links
      ≠ exampleHost.links := by
  decide

/-- C10, amended: when `createMacvlan` fails before the macvlan is created
(the uplink resolution fails, or the temporary name cannot be generated), it
returns an error, no creation of a macvlan was attempted, and the link table
is the one before the call, except that the one VLAN link of `ensureVlan`
may have been appended to it.  The id of that VLAN is `conf.VlanID` as
`netlink` sends it, a 16-bit value: `conf.VlanID` itself for every id from 0
to 65535. -/
theorem createMacvlan_early_failure_links (conf : netConf) (ifName : String) (netns : NetNS)
    (useVlan : Bool) (mac : String) (rnd : Except String String) (w : World) (e : String)
    (h : (resolveUplink conf useVlan w).1 = .error e ∨ rnd = .error e) :
    (∃ e', (createMacvlan conf ifName netns useVlan mac rnd w).1 = .error e') ∧
    ((createMacvlan conf ifName netns useVlan mac rnd w).2.links = w.links ∨
      ∃ v, useVlan = true ∧ v.kind = .vlan ∧ v.VlanId = vlanTag conf.VlanID ∧
        (0 ≤ conf.VlanID → conf.VlanID < 65536 → v.VlanId = conf.VlanID) ∧
        v.Namespace = w.cur ∧
        (v.Name = vlanName conf.Master conf.VlanID ∨ v.Name = vlanName conf.Master2 conf.VlanID) ∧
        (createMacvlan conf ifName netns useVlan mac rnd w).2.links = w.links ++ [v]) ∧
    (∃ evs, (createMacvlan conf ifName netns useVlan mac rnd w).2.log = w.log ++ evs ∧
      ∀ ns req err, Event.linkAdd ns req err ∈ evs → req.kind = .vlan) := by
  unfold createMacvlan
  rcases h1 : resolveUplink conf useVlan w with ⟨r1, w1⟩
  obtain ⟨-, ⟨evs, hg, hev⟩, hl0⟩ := resolveUplink_spec h1
  have hl : w1.links = w.links ∨
      ∃ v, useVlan = true ∧ v.kind = .vlan ∧ v.VlanId = vlanTag conf.VlanID ∧
        (0 ≤ conf.VlanID → conf.VlanID < 65536 → v.VlanId = conf.VlanID) ∧
        v.Namespace = w.cur ∧
        (v.Name = vlanName conf.Master conf.VlanID ∨ v.Name = vlanName conf.Master2 conf.VlanID) ∧
        w1.links = w.links ++ [v] := by
    rcases hl0 with hl0 | ⟨v, hu, hk, hv, hns, hnm, hl0⟩
    · exact Or.inl hl0
    · exact Or.inr ⟨v, hu, hk, hv, fun h0 h9 => by rw [hv]; exact vlanTag_of_lt h0 h9,
        hns, hnm, hl0⟩
  have hadd : ∀ ns req err, Event.linkAdd ns req err ∈ evs → req.kind = .vlan := by
    intro ns req err hmem
    simpa [Event.isUplinkCall] using hev _ hmem
  cases r1 with
  | error e1 =>
    exact ⟨⟨e1, rfl⟩, hl, evs, hg, hadd⟩
  | ok m =>
    rw [h1] at h
    rcases h with h | h
    · cases h
    · subst h
      refine ⟨⟨e, rfl⟩, hl, evs ++ [Event.randomVethName (some e)], ?_, ?_⟩
      · simp [RandomVethName, hg]
      · intro ns req err hmem
        rcases List.mem_append.1 hmem with hmem | hmem
        · exact hadd ns req err hmem
        · simp at hmem

/-- C10, instance: the example host with a failing name generator. -/
theorem createMacvlan_early_failure_links_witness :
    (Except.error "rand" : Except String String) = .error "rand" ∧
    ((createMacvlan cfg "eth0" exampleNs true "" (.error "rand") exampleHost).2.links
        = exampleHost.links ∨
      ∃ v, true = true ∧ v.kind = .vlan ∧ v.VlanId = vlanTag cfg.VlanID ∧
        (0 ≤ cfg.VlanID → cfg.VlanID < 65536 → v.VlanId = cfg.VlanID) ∧
        v.Namespace = exampleHost.cur ∧
        (v.Name = vlanName cfg.Master cfg.VlanID ∨ v.Name = vlanName cfg.Master2 cfg.VlanID) ∧
        (createMacvlan cfg "eth0" exampleNs true "" (.error "rand") exampleHost).2.links
          = exampleHost.links ++ [v]) :=
  ⟨rfl, (createMacvlan_early_failure_links cfg "eth0" exampleNs true ""
    (.error "rand") exampleHost "rand" (Or.inr rfl)).2.1⟩

/-! ## Logs -/

theorem LogExt.refl (P : Event → Prop) (w : World) : LogExt P w w :=
  ⟨[], by simp, by simp⟩

theorem LogExt.same {P : Event → Prop} {w1 w2 : World} (h : w2.log = w1.log) : LogExt P w1 w2 :=
  ⟨[], by simp [h], by simp⟩

theorem LogExt.one {P : Event → Prop} {a b : World} {e : Event}
    (h : b.log = a.log ++ [e]) (hp : P e) : LogExt P a b :=
  ⟨[e], h, by simpa using hp⟩

theorem LogExt.trans {P : Event → Prop} {w1 w2 w3 : World}
    (h12 : LogExt P w1 w2) (h23 : LogExt P w2 w3) : LogExt P w1 w3 := by
  obtain ⟨e1, h1, p1⟩ := h12
  obtain ⟨e2, h2, p2⟩ := h23
  refine ⟨e1 ++ e2, by rw [h2, h1, List.append_assoc], ?_⟩
  intro ev hev
  rcases List.mem_append.1 hev with hev | hev
  · exact p1 ev hev
  · exact p2 ev hev

theorem LogExt.mem {P : Event → Prop} {w1 w2 : World} (h : LogExt P w1 w2) {ev : Event}
    (hev : ev ∈ w1.log) : ev ∈ w2.log := by
  obtain ⟨evs, hg, -⟩ := h
  rw [hg]
  exact List.mem_append_left _ hev

theorem callsSince_eq {a b : World} {l : List Event} (h : b.log = a.log ++ l) :
    callsSince a b = l := by
  unfold callsSince
  rw [h]
  exact List.drop_left _ _

theorem mem_callsSince_last {P : Event → Prop} {a b c : World} {e : Event}
    (hab : LogExt P a b) (hbc : c.log = b.log ++ [e]) : e ∈ callsSince a c := by
  obtain ⟨evs, hg, -⟩ := hab
  rw [callsSince_eq (l := evs ++ [e]) (by rw [hbc, hg, List.append_assoc])]
  simp

theorem mem_callsSince_of_later {P Q : Event → Prop} {a b c : World} {e : Event}
    (hab : LogExt P a b) (hbc : LogExt Q b c) (h : e ∈ callsSince b c) :
    e ∈ callsSince a c := by
  obtain ⟨e1, h1, -⟩ := hab
  obtain ⟨e2, h2, -⟩ := hbc
  rw [callsSince_eq h2] at h
  rw [callsSince_eq (l := e1 ++ e2) (by rw [h2, h1, List.append_assoc])]
  exact List.mem_append_right _ h

/-! ## The link table with the new macvlan at its end -/

theorem RenameLink_spec {oldName newName : String} {w w' : World} {r : Option String}
    (h : RenameLink oldName newName w = (r, w')) :
    w'.cur = w.cur ∧ LogExt (fun ev => ev.isSetHardwareAddr = false) w w' ∧
    (r = none → ∃ l, findLink w.links w.cur oldName = some l ∧
      ((l.Name = newName ∧ w'.links = w.links) ∨
        (l.Name ≠ newName ∧ findLink w.links w.cur newName = none ∧
          w'.links = updateIndex w.links w.cur l.Index (fun x => { x with Name := newName })))) ∧
    (r ≠ none → w'.links = w.links) := by
  unfold RenameLink at h
  split at h
  · rename_i e w1 h1
    obtain ⟨hl1, hc1, -, hg1, -⟩ := LinkByName_spec h1
    simp only [Prod.mk.injEq] at h
    obtain ⟨rfl, rfl⟩ := h
    exact ⟨hc1, LogExt.one hg1 rfl, (by simp), fun _ => hl1⟩
  · rename_i l w1 h1
    obtain ⟨hl1, hc1, -, hg1, hf1⟩ := LinkByName_spec h1
    obtain ⟨hc2, -, hg2, hok2, herr2⟩ := LinkSetName_spec h
    refine ⟨by rw [hc2, hc1],
      (LogExt.one (P := fun ev => ev.isSetHardwareAddr = false) hg1 rfl).trans
        (LogExt.one (P := fun ev => ev.isSetHardwareAddr = false) hg2 rfl), ?_, ?_⟩
    · intro hr
      refine ⟨l, hf1 l rfl, ?_⟩
      rcases hok2 hr with ⟨hn, hl⟩ | ⟨hn, hfr, hl⟩
      · exact Or.inl ⟨hn, by rw [hl, hl1]⟩
      · exact Or.inr ⟨hn, by rw [← hl1, ← hc1]; exact hfr, by rw [hl, hl1, hc1]⟩
    · intro hr
      rw [herr2 hr, hl1]

theorem filter_snoc_index {L0 : List Link} {nl : Link} {ns : Nat}
    (hns : nl.Namespace = ns) (hidx : nl.Index = freshIndex L0) :
    (L0 ++ [nl]).filter (fun l => !decide (l.Namespace = ns ∧ l.Index = nl.Index)) = L0 := by
  rw [List.filter_append]
  have h1 : L0.filter (fun l => !decide (l.Namespace = ns ∧ l.Index = nl.Index)) = L0 := by
    rw [List.filter_eq_self]
    intro a ha
    have := index_lt_freshIndex L0 a ha
    simp only [Bool.not_eq_true', decide_eq_false_iff_not, not_and]
    intro _
    omega
  rw [h1]
  simp [hns]

theorem updateIndex_snoc {L0 : List Link} {nl : Link} {ns : Nat} (f : Link → Link)
    (hns : nl.Namespace = ns) (hidx : nl.Index = freshIndex L0) :
    updateIndex (L0 ++ [nl]) ns nl.Index f = L0 ++ [f nl] := by
  rw [updateIndex_append, hidx, updateIndex_fresh]
  simp [updateIndex, hns, hidx]

theorem findLink_snoc_new {L0 : List Link} {nl : Link} {ns : Nat} {name : String}
    (hfree : findLink L0 ns name = none) (hns : nl.Namespace = ns) (hname : nl.Name = name) :
    findLink (L0 ++ [nl]) ns name = some nl := by
  rw [findLink_append, hfree, findLink_single, if_pos ⟨hns, hname⟩]
  rfl

theorem findLink_snoc_other {L0 : List Link} {nl : Link} {ns : Nat} {name : String}
    (hname : nl.Name ≠ name) :
    findLink (L0 ++ [nl]) ns name = findLink L0 ns name := by
  rw [findLink_append, findLink_single, if_neg (fun h => hname h.2)]
  cases findLink L0 ns name <;> rfl

/-- The index a rollback works with, on a link table that ends in the new
macvlan under its temporary name: that of the macvlan, unless the link object
carries another one. -/
theorem ensureIndex_snoc {L0 : List Link} {nl : Link} {ns : Nat} {tmp : String}
    {mvIndex : Option Nat} {w : World} {idx : Nat}
    (hfree : findLink L0 ns tmp = none) (hns : nl.Namespace = ns) (hname : nl.Name = tmp)
    (hl : w.links = L0 ++ [nl]) (hc : w.cur = ns)
    (he : ensureIndex tmp mvIndex w = some idx) :
    idx = nl.Index ∨ ∃ i, mvIndex = some i ∧ i ≠ nl.Index := by
  cases mvIndex with
  | none =>
    left
    simp only [ensureIndex, hl, hc, findLink_snoc_new hfree hns hname, Option.map_some',
      Option.some.injEq] at he
    exact he.symm
  | some i =>
    simp only [ensureIndex, Option.some.injEq] at he
    subst he
    by_cases hi : i = nl.Index
    · exact Or.inl hi
    · exact Or.inr ⟨i, rfl, hi⟩

/-! ## Runs in which no call fails for a reason outside the link table -/

theorem headD_of_noFaults {w : World} (hf : NoFaults w) : w.faults.headD none = none := by
  unfold NoFaults at hf
  cases hfs : w.faults with
  | nil => rfl
  | cons f fs =>
    rw [hfs] at hf
    exact hf f (List.mem_cons_self _ _)

theorem NoFaults.pop {w : World} (hf : NoFaults w) : NoFaults (popFault w).2 :=
  fun f hmem => hf f (List.mem_of_mem_tail hmem)

theorem NoFaults.record {w : World} (ev : Event) (hf : NoFaults w) : NoFaults (record ev w) :=
  hf

theorem NoFaults.of_tail {w w' : World} (h : w'.faults = w.faults.tail) (hf : NoFaults w) :
    NoFaults w' := by
  intro f hmem
  rw [h] at hmem
  exact hf f (List.mem_of_mem_tail hmem)

@[simp] theorem popFault_links (w : World) : (popFault w).2.links = w.links := rfl
@[simp] theorem popFault_cur (w : World) : (popFault w).2.cur = w.cur := rfl
@[simp] theorem popFault_log (w : World) : (popFault w).2.log = w.log := rfl

theorem popFault_nofault {w : World} (hf : NoFaults w) : (popFault w).1 = none :=
  headD_of_noFaults hf

theorem LinkByName_found {name : String} {w : World} {l : Link} (hf : NoFaults w)
    (hn : nameTooLong name = false) (h : findLink w.links w.cur name = some l) :
    LinkByName name w = (.ok l, record (.linkByName w.cur name none) (popFault w).2) := by
  have h0 := popFault_nofault hf
  unfold LinkByName
  rcases hp : popFault w with ⟨r, w1⟩
  rw [hp] at h0
  simp only at h0
  subst h0
  have hl : w1.links = w.links := by rw [← popFault_links w, hp]
  have hc : w1.cur = w.cur := by rw [← popFault_cur w, hp]
  simp [hl, hc, h, hn]

theorem LinkByName_absent {name : String} {w : World} (hf : NoFaults w)
    (hn : nameTooLong name = false) (h : findLink w.links w.cur name = none) :
    LinkByName name w =
      (.error "Link not found",
        record (.linkByName w.cur name (some "Link not found")) (popFault w).2) := by
  have h0 := popFault_nofault hf
  unfold LinkByName
  rcases hp : popFault w with ⟨r, w1⟩
  rw [hp] at h0
  simp only at h0
  subst h0
  have hl : w1.links = w.links := by rw [← popFault_links w, hp]
  have hc : w1.cur = w.cur := by rw [← popFault_cur w, hp]
  simp [hl, hc, h, hn]

/-- A lookup that returns a link was not refused for the length of the name,
and the link is the one the table holds. -/
theorem LinkByName_ok {name : String} {w w' : World} {l : Link}
    (h : LinkByName name w = (.ok l, w')) :
    nameTooLong name = false ∧ findLink w.links w.cur name = some l := by
  refine ⟨?_, (LinkByName_spec h).2.2.2.2 l rfl⟩
  unfold LinkByName at h
  split at h
  · cases h
  · split at h
    · cases h
    · rename_i hlong
      simpa using hlong

theorem findLink_some_props {links : List Link} {ns : Nat} {name : String} {l : Link}
    (h : findLink links ns name = some l) : l ∈ links ∧ l.Namespace = ns ∧ l.Name = name := by
  unfold findLink at h
  have hmem := List.mem_of_find?_eq_some h
  have hp := List.find?_some h
  simp only [decide_eq_true_eq] at hp
  exact ⟨hmem, hp.1, hp.2⟩

theorem isNotFound_linkNotFound : isNotFound "Link not found" = true := by decide

theorem isNotFound_ERANGE : isNotFound ERANGE = false := by decide

/-- Without faults, a VLAN that exists is returned as it is. -/
theorem ensureVlanOn_found {master : String} {v : Int} {w : World} {l : Link}
    (hf : NoFaults w) (hn : nameTooLong (vlanName master v) = false)
    (h : findLink w.links w.cur (vlanName master v) = some l) :
    ensureVlanOn master v w =
      (.ok l, record (.linkByName w.cur (vlanName master v) none) (popFault w).2) := by
  simp [ensureVlanOn, LinkByName_found hf hn h]

/-- Without faults, `ensureVlan` continues with `master` when it exists. -/
theorem ensureVlan_primary {master master2 : String} {v : Int} {w : World} {m : Link}
    (hf : NoFaults w) (hn : nameTooLong master = false)
    (hm : findLink w.links w.cur master = some m) :
    ensureVlan master master2 v w =
      ensureVlanOn master v (record (.linkByName w.cur master none) (popFault w).2) := by
  simp [ensureVlan, LinkByName_found hf hn hm]

/-- Without faults, `ensureVlan` continues with `master2` when `master` is
absent. -/
theorem ensureVlan_secondary {master master2 : String} {v : Int} {w : World}
    (hf : NoFaults w) (hn : nameTooLong master = false)
    (hm : findLink w.links w.cur master = none) :
    ensureVlan master master2 v w =
      ensureVlanOn master2 v
        (record (.linkByName w.cur master (some "Link not found")) (popFault w).2) := by
  simp [ensureVlan, LinkByName_absent hf hn hm, isNotFound_linkNotFound]

/-! ## `ensureVlan`: the runs of lines 180-218, by the errors the kernel returned -/

theorem failedCalls_cons_none (ev : Event) (evs : List Event) (h : Event.err ev = none) :
    failedCalls (ev :: evs) = failedCalls evs := by
  simp [failedCalls, h]

theorem failedCalls_cons_some (ev : Event) (evs : List Event) (e : String)
    (h : Event.err ev = some e) : failedCalls (ev :: evs) = ev :: failedCalls evs := by
  simp [failedCalls, h]

/-- The four ways `ensureVlanOn` can run.  The VLAN is there and is returned;
or the lookup reports "not found", every later call succeeds and the VLAN is
created, set up and returned; or the lookup fails otherwise; or the lookup
reports "not found" and a later call fails. -/
theorem ensureVlanOn_run {mm : String} {v : Int} {w w' : World} {r : Except String Link}
    (h : ensureVlanOn mm v w = (r, w')) :
    ∃ evs, w'.log = w.log ++ evs ∧
      ((∃ l, r = .ok l ∧ failedCalls evs = [] ∧ nameTooLong (vlanName mm v) = false ∧
          findLink w.links w.cur (vlanName mm v) = some l ∧ w'.links = w.links ∧
          (NoFaults w → NoFaults w')) ∨
       (∃ l e2 p, r = .ok l ∧
          failedCalls evs = [.linkByName w.cur (vlanName mm v) (some e2)] ∧
          isNotFound e2 = true ∧ nameTooLong (vlanName mm v) = false ∧
          findLink w.links w.cur mm = some p ∧
          findLink w.links w.cur (vlanName mm v) = none ∧
          l.Name = vlanName mm v ∧ l.Index = freshIndex w.links ∧ l.ParentIndex = p.Index ∧
          l.VlanId = vlanTag v ∧ l.VlanId < 4095 ∧ l.kind = .vlan ∧ l.Namespace = w.cur ∧
          w'.links = w.links ++ [{ l with up := true }] ∧
          (NoFaults w → NoFaults w')) ∨
       (∃ e2, r = .error e2 ∧
          failedCalls evs = [.linkByName w.cur (vlanName mm v) (some e2)] ∧
          isNotFound e2 = false) ∨
       (∃ e, r = .error e ∧ (failedCalls evs).length = 2)) := by
  unfold ensureVlanOn at h
  dsimp only at h
  split at h
  · -- the VLAN is there
    rename_i vlanLink w2 h2
    obtain ⟨hl2, hc2, hf2, hg2, -⟩ := LinkByName_spec h2
    obtain ⟨hn2, hfound⟩ := LinkByName_ok h2
    simp only [Prod.mk.injEq] at h
    obtain ⟨rfl, rfl⟩ := h
    exact ⟨_, hg2, Or.inl ⟨vlanLink, rfl, by simp [failedCalls, Event.err, errOf], hn2, hfound,
      hl2, NoFaults.of_tail hf2⟩⟩
  · rename_i e2 w2 h2
    obtain ⟨hl2, hc2, hf2, hg2, -⟩ := LinkByName_spec h2
    simp only [errOf] at hg2
    split at h
    · -- the lookup fails for another reason than "not found"
      rename_i hnf
      simp only [Prod.mk.injEq] at h
      obtain ⟨rfl, rfl⟩ := h
      exact ⟨_, hg2, Or.inr (Or.inr (Or.inl ⟨e2, rfl, by simp [failedCalls, Event.err],
        by simpa using hnf⟩))⟩
    · rename_i hnf
      have hnf2 : isNotFound e2 = true := by simpa using hnf
      split at h
      · -- the lookup of the master fails
        rename_i e3 w3 h3
        obtain ⟨hl3, hc3, -, hg3, -⟩ := LinkByName_spec h3
        simp only [errOf] at hg3
        simp only [Prod.mk.injEq] at h
        obtain ⟨rfl, rfl⟩ := h
        refine ⟨_, by rw [hg3, hg2, List.append_assoc], Or.inr (Or.inr (Or.inr ⟨e3, rfl, ?_⟩))⟩
        simp [failedCalls, Event.err]
      · rename_i m w3 h3
        obtain ⟨hl3, hc3, hf3, hg3, -⟩ := LinkByName_spec h3
        obtain ⟨-, hmfound⟩ := LinkByName_ok h3
        simp only [errOf] at hg3
        rw [hl2, hc2] at hmfound
        split at h
        · -- the creation fails
          rename_i e4 w4 h4
          obtain ⟨hc4, -, hg4, -, -⟩ := LinkAdd_spec h4
          simp only [Prod.mk.injEq] at h
          obtain ⟨rfl, rfl⟩ := h
          refine ⟨_, by rw [hg4, hg3, hg2, List.append_assoc, List.append_assoc],
            Or.inr (Or.inr (Or.inr ⟨e4, rfl, ?_⟩))⟩
          simp [failedCalls, Event.err]
        · rename_i w4 h4
          obtain ⟨hc4, hf4, hg4, hok4, -⟩ := LinkAdd_spec h4
          obtain ⟨p, hpar, hfree, hl4⟩ := hok4 rfl
          have hchk := LinkAdd_checked h4
          simp only at hfree hpar hchk
          rw [hl3, hl2] at hfree hl4 hpar
          rw [hc3, hc2] at hfree hpar
          obtain ⟨hn4, hrange⟩ := hchk
          generalize hnl : newLink _ p (freshIndex w.links) = nl at hl4
          have hnl1 : nl.kind = .vlan ∧ nl.VlanId = vlanTag v ∧ nl.Namespace = w.cur ∧
              nl.Name = vlanName mm v ∧ nl.Index = freshIndex w.links ∧
              nl.ParentIndex = m.Index := by
            subst hnl; simp [newLink, hc3, hc2]
          obtain ⟨hk, hv, hns, hnm, hidx, hpi⟩ := hnl1
          split at h
          · -- the re-fetch fails
            rename_i e5 w5 h5
            obtain ⟨hl5, hc5, -, hg5, -⟩ := LinkByName_spec h5
            simp only [errOf] at hg5
            simp only [Prod.mk.injEq] at h
            obtain ⟨rfl, rfl⟩ := h
            refine ⟨_, by rw [hg5, hg4, hg3, hg2, List.append_assoc, List.append_assoc,
              List.append_assoc], Or.inr (Or.inr (Or.inr ⟨e5, rfl, ?_⟩))⟩
            simp [failedCalls, Event.err]
          · rename_i result w5 h5
            obtain ⟨hl5, hc5, hf5, hg5, hfd5⟩ := LinkByName_spec h5
            simp only [errOf] at hg5
            have hres := hfd5 result rfl
            rw [hl4, hc4, hc3, hc2, findLink_append, hfree, findLink_single] at hres
            simp only [Option.none_or] at hres
            rw [if_pos ⟨hns, hnm⟩] at hres
            cases hres
            split at h
            · -- the set-up fails
              rename_i e6 w6 h6
              obtain ⟨hc6, -, hg6, -, -⟩ := LinkSetUp_spec h6
              simp only [Prod.mk.injEq] at h
              obtain ⟨rfl, rfl⟩ := h
              refine ⟨_, by rw [hg6, hg5, hg4, hg3, hg2, List.append_assoc, List.append_assoc,
                List.append_assoc, List.append_assoc], Or.inr (Or.inr (Or.inr ⟨e6, rfl, ?_⟩))⟩
              simp [failedCalls, Event.err]
            · rename_i w6 h6
              obtain ⟨hc6, hf6, hg6, hok6, -⟩ := LinkSetUp_spec h6
              simp only [Prod.mk.injEq] at h
              obtain ⟨rfl, rfl⟩ := h
              have hl6 := hok6 rfl
              rw [hl5, hl4, hc5, hc4, hc3, hc2, updateIndex_snoc _ hns hidx] at hl6
              refine ⟨_, by rw [hg6, hg5, hg4, hg3, hg2, List.append_assoc, List.append_assoc,
                List.append_assoc, List.append_assoc], Or.inr (Or.inl ⟨nl, e2, m, rfl, ?_,
                  hnf2, hn4, hmfound, hfree, hnm, hidx, hpi, hv, ?_, hk, hns, hl6, ?_⟩)⟩
              · simp [failedCalls, Event.err]
              · rw [hv]
                exact (hrange trivial).1
              · intro hf
                exact NoFaults.of_tail hf6 (NoFaults.of_tail hf5 (NoFaults.of_tail hf4
                  (NoFaults.of_tail hf3 (NoFaults.of_tail hf2 hf))))

/-! ## `ensureVlan`: fallback to the secondary uplink (C5) -/

/-- C5, counterexample: `bond4` is absent, `eth0` exists and no link is named
`eth0.3`, but the kernel refuses the creation of the VLAN: `ensureVlan`
returns that error and creates nothing. -/
theorem ensureVlan_fallback_counterexample :
    errOf (LinkByName "bond4"
      { exampleHost with faults := [none, none, none, some "operation not supported"] }).1
      = some "Link not found" ∧
    findLink exampleHost.links exampleHost.cur "eth0" = some exampleEth0 ∧
    findLink exampleHost.links exampleHost.cur (vlanName "eth0" 3) = none ∧
    errOf (ensureVlan "bond4" "eth0" 3
      { exampleHost with faults := [none, none, none, some "operation not supported"] }).1
      = some "operation not supported" ∧
    (ensureVlan "bond4" "eth0" 3
      { exampleHost with faults := [none, none, none, some "operation not supported"] }).2.links
      = exampleHost.links := by
  decide

/-- C5, amended: `ensureVlan` falls back to the secondary uplink when the
kernel returns no error but the "not found" of the lookups.  When the lookup
of `master` reports "not found", `master2` exists, and the only other call
that returns an error is the lookup of `<master2>.<vlanID>`, which reports
"not found" too, then no link of that name existed and `ensureVlan` returns a
new VLAN link of that name, with parent index that of `master2` and, as VLAN
id, the id that `netlink` sends for `vlanID`: it is below 4095, and it is
`vlanID` itself whenever `0 ≤ vlanID < 65536`.  The link table is the old one
plus exactly that link, set up.  When the lookup of `master` succeeds, name
and parent are those of `master`. -/
theorem ensureVlan_fallback (master master2 : String) (vlanID : Int) (w : World) :
    (∀ m2 e1 e2, (LinkByName master w).1 = .error e1 → isNotFound e1 = true →
      findLink w.links w.cur master2 = some m2 → isNotFound e2 = true →
      failedCalls (callsSince w (ensureVlan master master2 vlanID w).2)
        = [.linkByName w.cur master (some e1),
           .linkByName w.cur (vlanName master2 vlanID) (some e2)] →
      ∃ created, (ensureVlan master master2 vlanID w).1 = .ok created ∧
        created.Name = vlanName master2 vlanID ∧ created.ParentIndex = m2.Index ∧
        created.VlanId = vlanTag vlanID ∧ created.VlanId < 4095 ∧
        (0 ≤ vlanID → vlanID < 65536 → created.VlanId = vlanID) ∧
        created.kind = .vlan ∧ created.Namespace = w.cur ∧
        findLink w.links w.cur (vlanName master2 vlanID) = none ∧
        (ensureVlan master master2 vlanID w).2.links
          = w.links ++ [{ created with up := true }]) ∧
    (∀ m e2, (LinkByName master w).1 = .ok m → isNotFound e2 = true →
      failedCalls (callsSince w (ensureVlan master master2 vlanID w).2)
        = [.linkByName w.cur (vlanName master vlanID) (some e2)] →
      ∃ created, (ensureVlan master master2 vlanID w).1 = .ok created ∧
        created.Name = vlanName master vlanID ∧ created.ParentIndex = m.Index ∧
        created.VlanId = vlanTag vlanID ∧ created.VlanId < 4095 ∧
        (0 ≤ vlanID → vlanID < 65536 → created.VlanId = vlanID) ∧
        created.kind = .vlan ∧ created.Namespace = w.cur ∧
        findLink w.links w.cur (vlanName master vlanID) = none ∧
        (ensureVlan master master2 vlanID w).2.links
          = w.links ++ [{ created with up := true }]) := by
  constructor
  · intro m2 e1 e2 hL hnf1 hm2 hnf2 hcalls
    rcases hL1 : LinkByName master w with ⟨r1, w1⟩
    rw [hL1] at hL
    simp only at hL
    subst hL
    obtain ⟨hl1, hc1, -, hg1, -⟩ := LinkByName_spec hL1
    simp only [errOf] at hg1
    have hrun : ensureVlan master master2 vlanID w = ensureVlanOn master2 vlanID w1 := by
      simp [ensureVlan, hL1, hnf1]
    rw [hrun] at hcalls ⊢
    rcases hon : ensureVlanOn master2 vlanID w1 with ⟨r, w'⟩
    rw [hon] at hcalls
    obtain ⟨evs, hg, hcases⟩ := ensureVlanOn_run hon
    rw [callsSince_eq (l := Event.linkByName w.cur master (some e1) :: evs)
      (by rw [hg, hg1, List.append_assoc]; rfl),
      failedCalls_cons_some (Event.linkByName w.cur master (some e1)) evs e1 rfl] at hcalls
    simp only [List.cons.injEq, true_and] at hcalls
    rw [hl1, hc1] at hcases
    rcases hcases with ⟨l, -, hfc, -⟩ | ⟨l, e2', p, rfl, -, -, -, hp, hfree, h1, -, h3, h4, h5,
      h6, h7, h8, -⟩ | ⟨e2', -, hfc, hnf⟩ | ⟨e, -, hfc⟩
    · rw [hfc] at hcalls
      cases hcalls
    · rw [hm2] at hp
      cases hp
      exact ⟨l, rfl, h1, h3, h4, h5, fun h0 h9 => by rw [h4]; exact vlanTag_of_lt h0 h9,
        h6, h7, hfree, h8⟩
    · rw [hfc] at hcalls
      simp only [List.cons.injEq, Event.linkByName.injEq, Option.some.injEq, true_and,
        and_true] at hcalls
      rw [hcalls, hnf2] at hnf
      cases hnf
    · rw [hcalls] at hfc
      simp at hfc
  · intro m e2 hL hnf2 hcalls
    rcases hL1 : LinkByName master w with ⟨r1, w1⟩
    rw [hL1] at hL
    simp only at hL
    subst hL
    obtain ⟨hl1, hc1, -, hg1, -⟩ := LinkByName_spec hL1
    obtain ⟨-, hm⟩ := LinkByName_ok hL1
    simp only [errOf] at hg1
    have hrun : ensureVlan master master2 vlanID w = ensureVlanOn master vlanID w1 := by
      simp [ensureVlan, hL1]
    rw [hrun] at hcalls ⊢
    rcases hon : ensureVlanOn master vlanID w1 with ⟨r, w'⟩
    rw [hon] at hcalls
    obtain ⟨evs, hg, hcases⟩ := ensureVlanOn_run hon
    rw [callsSince_eq (l := Event.linkByName w.cur master none :: evs)
      (by rw [hg, hg1, List.append_assoc]; rfl),
      failedCalls_cons_none (Event.linkByName w.cur master none) evs rfl] at hcalls
    rw [hl1, hc1] at hcases
    rcases hcases with ⟨l, -, hfc, -⟩ | ⟨l, e2', p, rfl, -, -, -, hp, hfree, h1, -, h3, h4, h5,
      h6, h7, h8, -⟩ | ⟨e2', -, hfc, hnf⟩ | ⟨e, -, hfc⟩
    · rw [hfc] at hcalls
      cases hcalls
    · rw [hm] at hp
      cases hp
      exact ⟨l, rfl, h1, h3, h4, h5, fun h0 h9 => by rw [h4]; exact vlanTag_of_lt h0 h9,
        h6, h7, hfree, h8⟩
    · rw [hfc] at hcalls
      simp only [List.cons.injEq, Event.linkByName.injEq, Option.some.injEq, true_and,
        and_true] at hcalls
      rw [hcalls, hnf2] at hnf
      cases hnf
    · rw [hcalls] at hfc
      simp at hfc

/-- C5, instance: the example host, where `bond4` is absent and `eth0` exists,
with a kernel that refuses nothing. -/
theorem ensureVlan_fallback_witness :
    (LinkByName "bond4" exampleHost).1 = .error "Link not found" ∧
    findLink exampleHost.links exampleHost.cur "eth0" = some exampleEth0 ∧
    failedCalls (callsSince exampleHost (ensureVlan "bond4" "eth0" 3 exampleHost).2)
      = [.linkByName 0 "bond4" (some "Link not found"),
         .linkByName 0 "eth0.3" (some "Link not found")] ∧
    ∃ created, (ensureVlan "bond4" "eth0" 3 exampleHost).1 = .ok created ∧
      created.Name = vlanName "eth0" 3 ∧ created.ParentIndex = exampleEth0.Index ∧
      created.VlanId = vlanTag 3 ∧ created.VlanId < 4095 ∧
      (0 ≤ (3 : Int) → (3 : Int) < 65536 → created.VlanId = 3) ∧
      created.kind = .vlan ∧ created.Namespace = exampleHost.cur ∧
      findLink exampleHost.links exampleHost.cur (vlanName "eth0" 3) = none ∧
      (ensureVlan "bond4" "eth0" 3 exampleHost).2.links
        = exampleHost.links ++ [{ created with up := true }] :=
  ⟨rfl, by decide, by decide,
    (ensureVlan_fallback "bond4" "eth0" 3 exampleHost).1 exampleEth0 "Link not found"
      "Link not found" rfl (by decide) (by decide) (by decide) (by decide)⟩

/-! ## `ensureVlan`: idempotence (C6) -/

/-- C6, counterexample: with `master` absent and named like the VLAN of
`master2`, the first call creates `eth0.3`, and the second call, which now
finds `master`, creates a second VLAN `eth0.3.3` and returns that one. -/
theorem ensureVlan_idempotent_counterexample :
    errOf (ensureVlan "eth0.3" "eth0" 3 exampleHost).1 = none ∧
    errOf (ensureVlan "eth0.3" "eth0" 3 (ensureVlan "eth0.3" "eth0" 3 exampleHost).2).1 = none ∧
    ((ensureVlan "eth0.3" "eth0" 3 exampleHost).1.toOption.map (fun l => l.Name)) = some "eth0.3" ∧
    ((ensureVlan "eth0.3" "eth0" 3
        (ensureVlan "eth0.3" "eth0" 3 exampleHost).2).1.toOption.map (fun l => l.Name))
      = some "eth0.3.3" ∧
    (ensureVlan "eth0.3" "eth0" 3 (ensureVlan "eth0.3" "eth0" 3 exampleHost).2).2.links
      ≠ (ensureVlan "eth0.3" "eth0" 3 exampleHost).2.links := by
  decide

/-- Without faults, the fast path: the VLAN of the chosen master exists, it is
returned, the link table is untouched and only lookups are made. -/
theorem ensureVlan_fast_path (master master2 mm : String) (v : Int) (w : World) {l : Link}
    (hf : NoFaults w) (hnm : nameTooLong master = false)
    (hnv : nameTooLong (vlanName mm v) = false)
    (hmm : (∃ m, findLink w.links w.cur master = some m ∧ mm = master) ∨
      (findLink w.links w.cur master = none ∧ mm = master2))
    (hv : findLink w.links w.cur (vlanName mm v) = some l) :
    (ensureVlan master master2 v w).1 = .ok l ∧
    (ensureVlan master master2 v w).2.links = w.links ∧
    ∃ evs, (ensureVlan master master2 v w).2.log = w.log ++ evs ∧
      ∀ ev ∈ evs, ∃ ns n e, ev = Event.linkByName ns n e := by
  rcases hmm with ⟨m, hm, rfl⟩ | ⟨hm, rfl⟩
  · rw [ensureVlan_primary hf hnm hm,
      ensureVlanOn_found (w := record _ (popFault w).2) (hf.pop.record _) hnv (by simpa using hv)]
    refine ⟨rfl, rfl, [.linkByName w.cur mm none, .linkByName w.cur (vlanName mm v) none],
      by simp, ?_⟩
    intro ev hev
    simp only [List.mem_cons, List.mem_singleton, List.not_mem_nil, or_false] at hev
    rcases hev with rfl | rfl <;> exact ⟨_, _, _, rfl⟩
  · rw [ensureVlan_secondary hf hnm hm,
      ensureVlanOn_found (w := record _ (popFault w).2) (hf.pop.record _) hnv (by simpa using hv)]
    refine ⟨rfl, rfl, [.linkByName w.cur master (some "Link not found"),
      .linkByName w.cur (vlanName mm v) none], by simp, ?_⟩
    intro ev hev
    simp only [List.mem_cons, List.mem_singleton, List.not_mem_nil, or_false] at hev
    rcases hev with rfl | rfl <;> exact ⟨_, _, _, rfl⟩

/-- After a run of `ensureVlanOn` that returned a link, a call of `ensureVlan`
that settles on the same master takes the fast path. -/
theorem ensureVlan_again {master master2 mm : String} {v : Int} {w1 w' : World} {l1 : Link}
    (hf1 : NoFaults w1) (hon : ensureVlanOn mm v w1 = (.ok l1, w'))
    (hnm : nameTooLong master = false)
    (hmm : (∃ m, findLink w1.links w1.cur master = some m ∧ mm = master) ∨
      (findLink w1.links w1.cur master = none ∧ mm = master2 ∧ master ≠ vlanName master2 v)) :
    ∃ l2, (ensureVlan master master2 v w').1 = .ok l2 ∧ l2.Name = l1.Name ∧
      l2.Index = l1.Index ∧ (ensureVlan master master2 v w').2.links = w'.links ∧
      ∃ evs, (ensureVlan master master2 v w').2.log = w'.log ++ evs ∧
        ∀ ev ∈ evs, ∃ ns n e, ev = Event.linkByName ns n e := by
  obtain ⟨hc, -, -⟩ := ensureVlanOn_spec hon
  obtain ⟨evs, -, hcases⟩ := ensureVlanOn_run hon
  rcases hcases with ⟨l, hl, -, hnv, hfound, hlinks, hnf⟩ |
    ⟨l, e2, p, hl, -, -, hnv, hp, hfree, h1, h2, -, -, -, -, h7, hlinks, hnf⟩ |
    ⟨e2, he, -⟩ | ⟨e, he, -⟩
  · cases hl
    obtain ⟨h2, h3, h4⟩ := ensureVlan_fast_path master master2 mm v w' (hnf hf1) hnm hnv
      (by
        rw [hlinks, hc]
        rcases hmm with ⟨m, hm, rfl⟩ | ⟨hm, rfl, -⟩
        · exact Or.inl ⟨m, hm, rfl⟩
        · exact Or.inr ⟨hm, rfl⟩)
      (by rw [hlinks, hc]; exact hfound)
    exact ⟨_, h2, rfl, rfl, h3, h4⟩
  · cases hl
    obtain ⟨h2, h3, h4⟩ := ensureVlan_fast_path master master2 mm v w'
      (l := { l1 with up := true }) (hnf hf1) hnm hnv
      (by
        rw [hlinks, hc]
        rcases hmm with ⟨m, hm, rfl⟩ | ⟨hm, rfl, hne⟩
        · refine Or.inl ⟨m, ?_, rfl⟩
          rw [findLink_append, hm]
          rfl
        · refine Or.inr ⟨?_, rfl⟩
          rw [findLink_snoc_other (by rw [h1]; exact fun h => hne h.symm)]
          exact hm)
      (by rw [hlinks, hc]; exact findLink_snoc_new hfree h7 h1)
    exact ⟨_, h2, rfl, rfl, h3, h4⟩
  · cases he
  · cases he

/-- C6, amended: when no call fails for a reason outside the link table, and
unless `master` is absent and is itself the name `<master2>.<vlanID>`,
`ensureVlan` is idempotent: after a successful first call a second call with
the same inputs succeeds, returns a link of the same name and index, leaves
the link table as the first call left it and makes only lookups (no
`LinkAdd`). -/
theorem ensureVlan_idempotent (master master2 : String) (vlanID : Int) (w : World)
    (hfaults : NoFaults w)
    (hname : findLink w.links w.cur master = none → master ≠ vlanName master2 vlanID)
    (l1 : Link) (h1 : (ensureVlan master master2 vlanID w).1 = .ok l1) :
    ∃ l2, (ensureVlan master master2 vlanID (ensureVlan master master2 vlanID w).2).1 = .ok l2 ∧
      l2.Name = l1.Name ∧ l2.Index = l1.Index ∧
      (ensureVlan master master2 vlanID (ensureVlan master master2 vlanID w).2).2.links
        = (ensureVlan master master2 vlanID w).2.links ∧
      ∃ evs, (ensureVlan master master2 vlanID (ensureVlan master master2 vlanID w).2).2.log
          = (ensureVlan master master2 vlanID w).2.log ++ evs ∧
        ∀ ev ∈ evs, ∃ ns n e, ev = Event.linkByName ns n e := by
  rcases hL : LinkByName master w with ⟨r1, w1⟩
  obtain ⟨hl1, hc1, hfl1, -, -⟩ := LinkByName_spec hL
  have hf1 : NoFaults w1 := NoFaults.of_tail hfl1 hfaults
  rcases LinkByName_cases (headD_of_noFaults hfaults) hL with
    ⟨-, rfl⟩ | ⟨hshort, ⟨m, hm, rfl⟩ | ⟨hm, rfl⟩⟩
  · -- the name of `master` is too long: the first call fails
    simp [ensureVlan, hL, isNotFound_ERANGE] at h1
  · have hrun : ensureVlan master master2 vlanID w = ensureVlanOn master vlanID w1 := by
      simp [ensureVlan, hL]
    rw [hrun] at h1 ⊢
    rcases hon : ensureVlanOn master vlanID w1 with ⟨r, w'⟩
    rw [hon] at h1
    simp only at h1
    subst h1
    exact ensureVlan_again hf1 hon hshort
      (Or.inl ⟨m, by rw [hl1, hc1]; exact hm, rfl⟩)
  · have hrun : ensureVlan master master2 vlanID w = ensureVlanOn master2 vlanID w1 := by
      simp [ensureVlan, hL, isNotFound_linkNotFound]
    rw [hrun] at h1 ⊢
    rcases hon : ensureVlanOn master2 vlanID w1 with ⟨r, w'⟩
    rw [hon] at h1
    simp only at h1
    subst h1
    exact ensureVlan_again hf1 hon hshort
      (Or.inr ⟨by rw [hl1, hc1]; exact hm, rfl, hname hm⟩)

/-- C6, instance: the example host with the inputs `main` uses. -/
theorem ensureVlan_idempotent_witness :
    NoFaults exampleHost ∧
    (ensureVlan "bond4" "eth0" 3 exampleHost).1 = .ok exampleVlan ∧
    ∃ l2, (ensureVlan "bond4" "eth0" 3 (ensureVlan "bond4" "eth0" 3 exampleHost).2).1 = .ok l2 ∧
      l2.Name = exampleVlan.Name ∧ l2.Index = exampleVlan.Index ∧
      (ensureVlan "bond4" "eth0" 3 (ensureVlan "bond4" "eth0" 3 exampleHost).2).2.links
        = (ensureVlan "bond4" "eth0" 3 exampleHost).2.links ∧
      ∃ evs, (ensureVlan "bond4" "eth0" 3 (ensureVlan "bond4" "eth0" 3 exampleHost).2).2.log
          = (ensureVlan "bond4" "eth0" 3 exampleHost).2.log ++ evs ∧
        ∀ ev ∈ evs, ∃ ns n e, ev = Event.linkByName ns n e :=
  ⟨(fun _ h => nomatch h), rfl, ensureVlan_idempotent "bond4" "eth0" 3 exampleHost
    (fun _ h => nomatch h) (fun _ => by decide) exampleVlan rfl⟩

/-! ## `createMacvlan`: the closure and the whole function -/

/-- What the closure of `createMacvlan` does to a link table that ends in the
macvlan just created, `nl`, under its temporary name: the link is rolled back,
or the rollback failed (and the log says so), or the rollback went for another
index, or the link is still there under the final name. -/
theorem createMacvlanInNs_spec {tmp ifName mac : String} {mvIndex : Option Nat}
    {netns : NetNS} {wS w' : World}
    {r : Except String Interface} {L0 : List Link} {nl : Link}
    (h : createMacvlanInNs tmp mvIndex ifName netns mac wS = (r, w'))
    (hlinks : wS.links = L0 ++ [nl]) (hcur : wS.cur = netns.id)
    (hname : nl.Name = tmp) (hns : nl.Namespace = netns.id) (hidx : nl.Index = freshIndex L0)
    (hfree : findLink L0 netns.id tmp = none) :
    w'.cur = netns.id ∧
    LogExt (fun ev => mac.length = 0 → ev.isSetHardwareAddr = false) wS w' ∧
    ((errOf r ≠ none ∧ w'.links = L0) ∨
     (errOf r ≠ none ∧ ∃ e, Event.linkDel netns.id tmp (some e) ∈ callsSince wS w') ∨
     (errOf r ≠ none ∧ ∃ i, mvIndex = some i ∧ i ≠ nl.Index) ∨
     (∃ nlF, w'.links = L0 ++ [nlF] ∧ nlF.Name = ifName ∧ nlF.Namespace = netns.id ∧
        nlF.Index = nl.Index ∧ nlF.kind = nl.kind ∧
        findLink w'.links netns.id ifName = some nlF ∧
        ∀ d, r = .ok d → d.Name = ifName ∧ d.Sandbox = netns.path ∧
          d.Mac = hwString nlF.HardwareAddr ∧
          (mac.length ≠ 0 → ∃ hw, ParseMAC mac = some hw ∧ nlF.HardwareAddr = hw.take 6) ∧
          (mac.length = 0 → nlF.HardwareAddr = nl.HardwareAddr))) := by
  have hP1 : ∀ {a b : World} {e : Event}, b.log = a.log ++ [e] → e.isSetHardwareAddr = false →
      LogExt (fun ev => mac.length = 0 → ev.isSetHardwareAddr = false) a b :=
    fun hg hp => LogExt.one hg (fun _ => hp)
  have hmono : ∀ {a b : World}, LogExt (fun ev => ev.isSetHardwareAddr = false) a b →
      LogExt (fun ev => mac.length = 0 → ev.isSetHardwareAddr = false) a b := by
    rintro a b ⟨evs, hg, hp⟩
    exact ⟨evs, hg, fun ev hev _ => hp ev hev⟩
  unfold createMacvlanInNs at h
  split at h
  · -- proxy_arp failed: roll back
    rename_i e w1 h1
    obtain ⟨hc1, -, hg1, -, herr1⟩ := SysctlProxyArp_spec h1
    have hl1 := herr1 (by simp)
    rcases h2 : LinkDel tmp mvIndex w1 with ⟨rd, w2⟩
    rw [h2] at h
    obtain ⟨hc2, -, hg2, hok2, -⟩ := LinkDel_spec h2
    simp only [Prod.mk.injEq] at h
    obtain ⟨rfl, rfl⟩ := h
    refine ⟨by rw [hc2, hc1, hcur], (hP1 hg1 rfl).trans (hP1 hg2 rfl), ?_⟩
    cases rd with
    | none =>
      obtain ⟨idx, hei, hl2⟩ := hok2 rfl
      rcases ensureIndex_snoc hfree hns hname (by rw [hl1, hlinks])
        (by rw [hc1, hcur]) hei with hi | hpoll
      · refine Or.inl ⟨by simp [errOf], ?_⟩
        rw [hl2, hl1, hlinks, hc1, hcur, hi]
        exact filter_snoc_index hns hidx
      · exact Or.inr (Or.inr (Or.inl ⟨by simp [errOf], hpoll⟩))
    | some e' =>
      refine Or.inr (Or.inl ⟨by simp [errOf], e', ?_⟩)
      have := mem_callsSince_last (hP1 hg1 rfl) hg2
      rw [hc1, hcur] at this
      exact this
  · rename_i w1 h1
    obtain ⟨hc1, -, hg1, hok1, -⟩ := SysctlProxyArp_spec h1
    obtain ⟨l1, hl1f, hl1⟩ := hok1 rfl
    rw [hlinks, hcur, findLink_snoc_new hfree hns hname] at hl1f
    cases hl1f
    rw [hlinks, hcur, updateIndex_snoc _ hns hidx] at hl1
    -- the link after proxy_arp was switched on
    generalize hnl1 : ({ nl with proxyArp := true } : Link) = nl1 at hl1
    have hname1 : nl1.Name = tmp := by subst hnl1; exact hname
    have hns1 : nl1.Namespace = netns.id := by subst hnl1; exact hns
    have hidx1 : nl1.Index = freshIndex L0 := by subst hnl1; exact hidx
    have hkind1 : nl1.kind = nl.kind := by subst hnl1; rfl
    have hhw1 : nl1.HardwareAddr = nl.HardwareAddr := by subst hnl1; rfl
    have hcur1 : w1.cur = netns.id := by rw [hc1, hcur]
    split at h
    · -- rename failed: roll back
      rename_i e w2 h2
      obtain ⟨hc2, hg2, -, herr2⟩ := RenameLink_spec h2
      have hl2 := herr2 (by simp)
      rcases h3 : LinkDel tmp mvIndex w2 with ⟨rd, w3⟩
      rw [h3] at h
      obtain ⟨hc3, -, hg3, hok3, -⟩ := LinkDel_spec h3
      simp only [Prod.mk.injEq] at h
      obtain ⟨rfl, rfl⟩ := h
      refine ⟨by rw [hc3, hc2, hcur1], ((hP1 hg1 rfl).trans (hmono hg2)).trans (hP1 hg3 rfl), ?_⟩
      cases rd with
      | none =>
        obtain ⟨idx, hei, hl3⟩ := hok3 rfl
        rcases ensureIndex_snoc hfree hns1 hname1 (by rw [hl2, hl1])
          (by rw [hc2, hcur1]) hei with hi | hpoll
        · refine Or.inl ⟨by simp [errOf], ?_⟩
          rw [hl3, hl2, hl1, hc2, hcur1, hi]
          exact filter_snoc_index hns1 hidx1
        · refine Or.inr (Or.inr (Or.inl ⟨by simp [errOf], ?_⟩))
          obtain ⟨i, hi1, hi2⟩ := hpoll
          exact ⟨i, hi1, by rw [← hidx, ← hidx1] at *; exact hi2⟩
      | some e' =>
        refine Or.inr (Or.inl ⟨by simp [errOf], e', ?_⟩)
        have := mem_callsSince_last ((hP1 hg1 rfl).trans (hmono hg2)) hg3
        rw [hc2, hcur1] at this
        exact this
    · rename_i w2 h2
      obtain ⟨hc2, hg2, hok2, -⟩ := RenameLink_spec h2
      have hcur2 : w2.cur = netns.id := by rw [hc2, hcur1]
      obtain ⟨l2, hl2f, hren⟩ := hok2 rfl
      rw [hl1, hcur1, findLink_snoc_new hfree hns1 hname1] at hl2f
      cases hl2f
      -- the link under its final name
      obtain ⟨nl2, hl2, hname2, hns2, hidx2, hkind2, hhw2, hfind2⟩ :
          ∃ nl2, w2.links = L0 ++ [nl2] ∧ nl2.Name = ifName ∧ nl2.Namespace = netns.id ∧
            nl2.Index = freshIndex L0 ∧ nl2.kind = nl.kind ∧
            nl2.HardwareAddr = nl.HardwareAddr ∧
            findLink (L0 ++ [nl2]) netns.id ifName = some nl2 := by
        rcases hren with ⟨hn, hl⟩ | ⟨hn, hfr, hl⟩
        · refine ⟨nl1, by rw [hl, hl1], hn, hns1, hidx1, hkind1, hhw1, ?_⟩
          rw [← hn, hname1]
          exact findLink_snoc_new hfree hns1 hname1
        · rw [hl1, hcur1, updateIndex_snoc _ hns1 hidx1] at hl
          rw [hl1, hcur1, findLink_snoc_other hn] at hfr
          exact ⟨_, hl, rfl, hns1, hidx1, hkind1, hhw1, findLink_snoc_new hfr hns1 rfl⟩
      have hlog2 : LogExt (fun ev => mac.length = 0 → ev.isSetHardwareAddr = false) wS w2 :=
        (hP1 hg1 rfl).trans (hmono hg2)
      split at h
      · -- re-fetch failed: the link stays
        rename_i e w3 h3
        obtain ⟨hl3, hc3, -, hg3, -⟩ := LinkByName_spec h3
        simp only [Prod.mk.injEq] at h
        obtain ⟨rfl, rfl⟩ := h
        refine ⟨by rw [hc3, hcur2], hlog2.trans (hP1 hg3 rfl),
          Or.inr (Or.inr (Or.inr ⟨nl2, by rw [hl3, hl2], hname2, hns2, by rw [hidx2, hidx], hkind2,
            by rw [hl3, hl2]; exact hfind2, by simp⟩))⟩
      · rename_i cont w3 h3
        obtain ⟨hl3, hc3, -, hg3, hf3⟩ := LinkByName_spec h3
        have hcont := hf3 cont rfl
        rw [hl2, hcur2, hfind2] at hcont
        cases hcont
        have hcur3 : w3.cur = netns.id := by rw [hc3, hcur2]
        have hlog3 := hlog2.trans (hP1 hg3 rfl)
        split at h
        · rename_i hmac
          split at h
          · -- the MAC does not parse: the link stays
            simp only [Prod.mk.injEq] at h
            obtain ⟨rfl, rfl⟩ := h
            exact ⟨hcur3, hlog3, Or.inr (Or.inr (Or.inr ⟨nl2, by rw [hl3, hl2], hname2, hns2,
              by rw [hidx2, hidx], hkind2, by rw [hl3, hl2]; exact hfind2, by simp⟩))⟩
          · rename_i hw hparse
            split at h
            · -- the write failed: the link stays
              rename_i e w4 h4
              obtain ⟨hc4, -, hg4, -, herr4⟩ := LinkSetHardwareAddr_spec h4
              simp only [Prod.mk.injEq] at h
              obtain ⟨rfl, rfl⟩ := h
              have hl4 := herr4 (by simp)
              refine ⟨by rw [hc4, hcur3],
                hlog3.trans (LogExt.one hg4 (fun h0 => absurd h0 hmac)),
                Or.inr (Or.inr (Or.inr ⟨nl2, by rw [hl4, hl3, hl2], hname2, hns2,
                  by rw [hidx2, hidx], hkind2, by rw [hl4, hl3, hl2]; exact hfind2, by simp⟩))⟩
            · rename_i w4 h4
              obtain ⟨hc4, -, hg4, hok4, -⟩ := LinkSetHardwareAddr_spec h4
              have hl4 := hok4 rfl
              rw [hl3, hl2, hcur3, updateIndex_snoc _ hns2 hidx2] at hl4
              have hcur4 : w4.cur = netns.id := by rw [hc4, hcur3]
              have hlog4 := hlog3.trans
                (LogExt.one (P := fun ev => mac.length = 0 → ev.isSetHardwareAddr = false)
                  hg4 (fun h0 => absurd h0 hmac))
              generalize hnl3 : ({ nl2 with HardwareAddr := hw.take 6 } : Link) = nl3 at hl4
              have hname3 : nl3.Name = ifName := by subst hnl3; exact hname2
              have hns3 : nl3.Namespace = netns.id := by subst hnl3; exact hns2
              have hidx3 : nl3.Index = nl.Index := by subst hnl3; rw [hidx]; exact hidx2
              have hkind3 : nl3.kind = nl.kind := by subst hnl3; exact hkind2
              have hhw3 : nl3.HardwareAddr = hw.take 6 := by subst hnl3; rfl
              have hfind4 : findLink (L0 ++ [nl3]) netns.id ifName = some nl3 := by
                by_cases hti : tmp = ifName
                · subst hti
                  exact findLink_snoc_new hfree hns3 hname3
                · have : findLink L0 netns.id ifName = none := by
                    cases hq : findLink L0 netns.id ifName with
                    | none => rfl
                    | some q =>
                      rw [findLink_append, hq] at hfind2
                      simp only [Option.or_some, Option.some.injEq] at hfind2
                      subst hfind2
                      have hmem := (findLink_some_props hq).1
                      have := index_lt_freshIndex L0 _ hmem
                      omega
                  exact findLink_snoc_new this hns3 hname3
              split at h
              · rename_i e w5 h5
                obtain ⟨hl5, hc5, -, hg5, -⟩ := LinkByName_spec h5
                simp only [Prod.mk.injEq] at h
                obtain ⟨rfl, rfl⟩ := h
                refine ⟨by rw [hc5, hcur4], hlog4.trans (hP1 hg5 rfl),
                  Or.inr (Or.inr (Or.inr ⟨nl3, by rw [hl5, hl4], hname3, hns3, hidx3, hkind3,
                    by rw [hl5, hl4]; exact hfind4, by simp⟩))⟩
              · rename_i cont2 w5 h5
                obtain ⟨hl5, hc5, -, hg5, hf5⟩ := LinkByName_spec h5
                have hcont2 := hf5 cont2 rfl
                rw [hl4, hcur4, hfind4] at hcont2
                cases hcont2
                simp only [Prod.mk.injEq] at h
                obtain ⟨rfl, rfl⟩ := h
                refine ⟨by rw [hc5, hcur4], hlog4.trans (hP1 hg5 rfl),
                  Or.inr (Or.inr (Or.inr ⟨nl3, by rw [hl5, hl4], hname3, hns3, hidx3, hkind3,
                    by rw [hl5, hl4]; exact hfind4, ?_⟩))⟩
                intro d hd
                cases hd
                exact ⟨rfl, rfl, rfl, fun _ => ⟨hw, hparse, hhw3⟩, fun h0 => absurd h0 hmac⟩
        · rename_i hmac
          simp only [Prod.mk.injEq] at h
          obtain ⟨rfl, rfl⟩ := h
          refine ⟨hcur3, hlog3, Or.inr (Or.inr (Or.inr ⟨nl2, by rw [hl3, hl2], hname2, hns2,
            by rw [hidx2, hidx], hkind2, by rw [hl3, hl2]; exact hfind2, ?_⟩))⟩
          intro d hd
          cases hd
          exact ⟨rfl, rfl, rfl, fun h0 => absurd (by simpa using hmac) h0, fun _ => hhw2⟩

theorem nsDo_spec {ρ : Type} {netns : NetNS} {fail : String → ρ} {f : World → ρ × World}
    {w w' : World} {r : ρ} (h : nsDo netns fail f w = (r, w')) :
    (∃ e, r = fail e ∧ w'.links = w.links ∧ w'.cur = w.cur ∧
      w'.log = w.log ++ [.nsDo netns.id (some e)]) ∨
    (∃ wS w2, wS.links = w.links ∧ wS.cur = netns.id ∧
      wS.log = w.log ++ [.nsDo netns.id none] ∧ wS.faults = w.faults.tail ∧
      f wS = (r, w2) ∧ w'.links = w2.links ∧ w'.log = w2.log ∧ w'.cur = w.cur ∧
      w'.faults = w2.faults) := by
  unfold nsDo popFault at h
  split at h
  · rename_i e w1 hp
    simp only [Prod.mk.injEq] at hp h
    obtain ⟨-, rfl⟩ := hp
    obtain ⟨rfl, rfl⟩ := h
    exact Or.inl ⟨e, rfl, rfl, rfl, rfl⟩
  · rename_i w1 hp
    simp only [Prod.mk.injEq] at hp
    obtain ⟨-, rfl⟩ := hp
    split at h
    rename_i r2 w2 h2
    simp only [Prod.mk.injEq] at h
    obtain ⟨rfl, rfl⟩ := h
    exact Or.inr ⟨{ record (.nsDo netns.id none) { w with faults := w.faults.tail } with
      cur := netns.id }, w2, rfl, rfl, rfl, rfl, h2, rfl, rfl, rfl, rfl⟩

theorem length_eq_zero_iff (s : String) : s.length = 0 ↔ s = "" := by
  constructor
  · intro h
    apply String.ext
    exact List.length_eq_zero.1 h
  · intro h
    rw [h]
    rfl

theorem isSetHardwareAddr_of_isUplinkCall {ev : Event} (h : ev.isUplinkCall = true) :
    ev.isSetHardwareAddr = false := by
  cases ev <;> first | rfl | simp [Event.isUplinkCall] at h

/-- Everything `createMacvlan` can leave behind.  `L0` is the link table after
the uplink resolution: the old one, possibly with the VLAN of `ensureVlan`. -/
theorem createMacvlan_spec {conf : netConf} {ifName mac : String} {netns : NetNS}
    {useVlan : Bool} {rnd : Except String String} {w w' : World}
    {r : Except String Interface}
    (h : createMacvlan conf ifName netns useVlan mac rnd w = (r, w')) :
    w'.cur = w.cur ∧
    LogExt (fun ev => mac.length = 0 → ev.isSetHardwareAddr = false) w w' ∧
    ∃ L0, (L0 = w.links ∨ ∃ v, useVlan = true ∧ v.kind = .vlan ∧ v.Namespace = w.cur ∧
        (v.Name = vlanName conf.Master conf.VlanID ∨
          v.Name = vlanName conf.Master2 conf.VlanID) ∧ L0 = w.links ++ [v]) ∧
      ((errOf r ≠ none ∧ w'.links = L0) ∨
       (∃ tmp nl e, rnd = .ok tmp ∧ errOf r ≠ none ∧ w'.links = L0 ++ [nl] ∧
          Event.nsDo netns.id (some e) ∈ callsSince w w') ∨
       (∃ tmp e, rnd = .ok tmp ∧ errOf r ≠ none ∧
          Event.linkDel netns.id tmp (some e) ∈ callsSince w w') ∨
       (∃ tmp l, rnd = .ok tmp ∧ errOf r ≠ none ∧ findLink L0 w.cur tmp = some l) ∨
       (∃ nlF, w'.links = L0 ++ [nlF] ∧ nlF.Name = ifName ∧ nlF.Namespace = netns.id ∧
          nlF.Index = freshIndex L0 ∧ nlF.kind = .macvlan ∧
          findLink w'.links netns.id ifName = some nlF ∧
          ∀ d, r = .ok d → d.Name = ifName ∧ d.Sandbox = netns.path ∧
            d.Mac = hwString nlF.HardwareAddr ∧
            (mac.length ≠ 0 → ∃ hw, ParseMAC mac = some hw ∧ nlF.HardwareAddr = hw.take 6) ∧
            (mac.length = 0 → nlF.HardwareAddr = kernelHw nlF.Index))) := by
  have hP1 : ∀ {a b : World} {e : Event}, b.log = a.log ++ [e] → e.isSetHardwareAddr = false →
      LogExt (fun ev => mac.length = 0 → ev.isSetHardwareAddr = false) a b :=
    fun hg hp => LogExt.one hg (fun _ => hp)
  unfold createMacvlan at h
  split at h
  · rename_i e w1 h1
    obtain ⟨hc1, ⟨evs, hg, hev⟩, hl⟩ := resolveUplink_spec h1
    simp only [Prod.mk.injEq] at h
    obtain ⟨rfl, rfl⟩ := h
    refine ⟨hc1, ⟨evs, hg, fun ev hev' _ => ?_⟩, _, ?_, Or.inl ⟨by simp [errOf], rfl⟩⟩
    · exact isSetHardwareAddr_of_isUplinkCall (hev ev hev')
    · rcases hl with hl | ⟨v, hu, hk, -, hns, hnm, hl⟩
      · exact Or.inl hl
      · exact Or.inr ⟨v, hu, hk, hns, hnm, hl⟩
  · rename_i m w1 h1
    obtain ⟨hc1, ⟨evs, hg, hev⟩, hl⟩ := resolveUplink_spec h1
    have hlog1 : LogExt (fun ev => mac.length = 0 → ev.isSetHardwareAddr = false) w w1 := by
      exact ⟨evs, hg, fun ev hev' _ => isSetHardwareAddr_of_isUplinkCall (hev ev hev')⟩
    have hL0 : w1.links = w.links ∨ ∃ v, useVlan = true ∧ v.kind = .vlan ∧ v.Namespace = w.cur ∧
        (v.Name = vlanName conf.Master conf.VlanID ∨
          v.Name = vlanName conf.Master2 conf.VlanID) ∧ w1.links = w.links ++ [v] := by
      rcases hl with hl | ⟨v, hu, hk, -, hns, hnm, hl⟩
      · exact Or.inl hl
      · exact Or.inr ⟨v, hu, hk, hns, hnm, hl⟩
    clear hl
    cases rnd with
    | error e =>
      simp only [RandomVethName, Prod.mk.injEq] at h
      obtain ⟨rfl, rfl⟩ := h
      exact ⟨hc1, hlog1.trans (hP1 (e := .randomVethName (some e)) rfl rfl), w1.links, hL0,
        Or.inl ⟨by simp [errOf], rfl⟩⟩
    | ok tmp =>
      simp only [RandomVethName] at h
      have hlog2 : LogExt (fun ev => mac.length = 0 → ev.isSetHardwareAddr = false) w
          (record (Event.randomVethName none) w1) :=
        hlog1.trans (hP1 (e := .randomVethName none) rfl rfl)
      split at h
      · rename_i e w3 h3
        obtain ⟨hc3, -, hg3, -, herr3⟩ := LinkAdd_spec h3
        simp only [Prod.mk.injEq] at h
        obtain ⟨rfl, rfl⟩ := h
        exact ⟨by rw [hc3]; exact hc1, hlog2.trans (hP1 hg3 rfl), w1.links, hL0,
          Or.inl ⟨by simp [errOf], by rw [herr3 (by simp)]; rfl⟩⟩
      · rename_i w3 h3
        obtain ⟨hc3, -, hg3, hok3, -⟩ := LinkAdd_spec h3
        obtain ⟨p, -, hfree, hl3⟩ := hok3 rfl
        simp only [record_links, record_cur] at hfree hl3 hc3
        have hlog3 := hlog2.trans (hP1 hg3 rfl)
        rcases nsDo_spec h with ⟨e, rfl, hl5, hc5, hg5⟩ |
          ⟨wS, w5, hlS, hcS, hgS, -, hclo, hl5, hg5, hc5, -⟩
        · exact ⟨by rw [hc5, hc3]; exact hc1, hlog3.trans (hP1 hg5 rfl), w1.links, hL0,
            Or.inr (Or.inl ⟨tmp, _, e, rfl, by simp [errOf], by rw [hl5, hl3],
              mem_callsSince_last hlog3 hg5⟩)⟩
        · obtain ⟨hcF, hlogF, hout⟩ := createMacvlanInNs_spec hclo (by rw [hlS, hl3]) hcS
            (by simp [newLink]) (by simp [newLink]) (by simp [newLink]) hfree
          refine ⟨by rw [hc5, hc3]; exact hc1,
            (hlog3.trans (hP1 hgS rfl)).trans (LogExt.trans hlogF (LogExt.same hg5)),
            w1.links, hL0, ?_⟩
          rcases hout with ⟨he, hl⟩ | ⟨he, e, hmem⟩ | ⟨he, i, hi1, hi2⟩ |
            ⟨nlF, hl, hn, hns, hi, hk, hfd, hd⟩
          · exact Or.inl ⟨he, by rw [hl5, hl]⟩
          · refine Or.inr (Or.inr (Or.inl ⟨tmp, e, rfl, he, ?_⟩))
            have := mem_callsSince_of_later (hlog3.trans (hP1 hgS rfl)) hlogF hmem
            unfold callsSince at this ⊢
            rw [hg5]
            exact this
          · -- the link object carried the index of a link of the caller's namespace
            refine Or.inr (Or.inr (Or.inr (Or.inl ?_)))
            cases hq : findLink w1.links w.cur tmp with
            | some l => exact ⟨tmp, l, rfl, he, hq⟩
            | none =>
              exfalso
              simp only [ensureIndex, hl3, hc3, record_cur, hc1, findLink_append, hq,
                Option.none_or, findLink_single] at hi1
              split at hi1
              · simp only [Option.map_some', Option.some.injEq] at hi1
                exact hi2 hi1.symm
              · simp at hi1
          · refine Or.inr (Or.inr (Or.inr (Or.inr ⟨nlF, by rw [hl5, hl], hn, hns, ?_, ?_,
              by rw [hl5]; exact hfd, ?_⟩)))
            · rw [hi]; simp [newLink]
            · rw [hk]; simp [newLink]
            · intro d hd'
              obtain ⟨h1', h2', h3', h4', h5'⟩ := hd d hd'
              refine ⟨h1', h2', h3', h4', fun h0 => ?_⟩
              rw [h5' h0, hi]
              simp [newLink]

theorem dot_mem_vlanName (master : String) (v : Int) : '.' ∈ (vlanName master v).data := by
  simp [vlanName, String.data_append]

/-- C1, the failing input: `createMacvlan` on the example host with a MAC that
does not parse.  The macvlan has been created and renamed when `net.ParseMAC`
fails; the error is returned without any `LinkDel`, and the namespace still
holds the macvlan under the final name `eth0`. -/
theorem createMacvlan_malformed_mac_leaves_link :
    errOf (createMacvlan cfg "eth0" exampleNs true "zz" (.ok "veth12345678") exampleHost).1
      = some "address zz: invalid MAC address" ∧
    (findLink (createMacvlan cfg "eth0" exampleNs true "zz" (.ok "veth12345678")
      exampleHost).2.links exampleNs.id "eth0").map (fun l => l.kind) = some .macvlan ∧
    ∀ ev ∈ (createMacvlan cfg "eth0" exampleNs true "zz" (.ok "veth12345678")
      exampleHost).2.log, ∀ ns n e, ev ≠ Event.linkDel ns n e := by
  refine ⟨by decide, by decide, ?_⟩
  have hlog : (createMacvlan cfg "eth0" exampleNs true "zz" (.ok "veth12345678")
      exampleHost).2.log.all (fun ev => match ev with | .linkDel _ _ _ => false | _ => true)
        = true := by decide
  intro ev hev ns n e h
  have := List.all_eq_true.1 hlog ev hev
  subst h
  simp at this

/-- C4, counterexample: the proxy-ARP sysctl fails and the compensating
`LinkDel`, whose error the code drops, fails too; `createMacvlan` returns an
error and the macvlan is still in the namespace under its temporary name. -/
theorem createMacvlan_tmp_name_counterexample :
    errOf (createMacvlan cfg "eth0" exampleNs true "" (.ok "veth12345678")
      { exampleHost with faults := [none, none, none, none, none, none, none, none,
          some "permission denied", some "no buffer space available"] }).1
      = some "failed to set proxy_arp on newly added interface \"veth12345678\": permission denied" ∧
    findLink exampleHost.links exampleNs.id "veth12345678" = none ∧
    (findLink (createMacvlan cfg "eth0" exampleNs true "" (.ok "veth12345678")
      { exampleHost with faults := [none, none, none, none, none, none, none, none,
          some "permission denied", some "no buffer space available"] }).2.links
      exampleNs.id "veth12345678").map (fun l => l.kind) = some .macvlan := by
  decide

/-- C4, amended: for a temporary name that differs from `ifName`, has no dot
in it and is free in the namespace of the caller, in every run of
`createMacvlan` among whose calls there is neither a failed switch into the
namespace nor a failed `LinkDel` of the temporary name, every namespace in
which the temporary name was free before the call has no link of that name
after it. -/
theorem createMacvlan_tmp_name_gone (conf : netConf) (ifName : String) (netns : NetNS)
    (useVlan : Bool) (mac tmpName : String) (w : World)
    (hne : tmpName ≠ ifName) (hdot : '.' ∉ tmpName.data)
    (hhost : findLink w.links w.cur tmpName = none)
    (hswitch : ∀ e, Event.nsDo netns.id (some e) ∉
      callsSince w (createMacvlan conf ifName netns useVlan mac (.ok tmpName) w).2)
    (hdel : ∀ e, Event.linkDel netns.id tmpName (some e) ∉
      callsSince w (createMacvlan conf ifName netns useVlan mac (.ok tmpName) w).2)
    (n : Nat) (hfree : findLink w.links n tmpName = none) :
    findLink (createMacvlan conf ifName netns useVlan mac (.ok tmpName) w).2.links n tmpName
      = none := by
  rcases hres : createMacvlan conf ifName netns useVlan mac (.ok tmpName) w with ⟨r, w'⟩
  rw [hres] at hswitch hdel
  obtain ⟨-, -, L0, hL0, hout⟩ := createMacvlan_spec hres
  have hkeep : ∀ k, findLink w.links k tmpName = none → findLink L0 k tmpName = none := by
    intro k hk
    rcases hL0 with rfl | ⟨v, -, -, -, hnm, rfl⟩
    · exact hk
    · rw [findLink_snoc_other, hk]
      intro hv
      apply hdot
      rw [← hv]
      rcases hnm with hnm | hnm <;> rw [hnm] <;> exact dot_mem_vlanName _ _
  have hfree0 := hkeep n hfree
  rcases hout with ⟨-, hl⟩ | ⟨tmp, nl, e, -, -, -, hmem⟩ | ⟨tmp, e, htmp, -, hmem⟩ |
    ⟨tmp, l, htmp, -, hl⟩ | ⟨nlF, hl, hn, -, -, -, -, -⟩
  · simpa [hl] using hfree0
  · exact absurd hmem (hswitch e)
  · cases htmp
    exact absurd hmem (hdel e)
  · cases htmp
    rw [hkeep w.cur hhost] at hl
    cases hl
  · simp only [hl]
    rw [findLink_snoc_other (by rw [hn]; exact fun h => hne h.symm)]
    exact hfree0

theorem not_mem_of_all {p : Event → Bool} {log : List Event} (h : log.all p = true)
    {ev : Event} (hp : p ev = false) : ev ∉ log := by
  intro hmem
  have := List.all_eq_true.1 h ev hmem
  rw [hp] at this
  cases this

/-- C4, instance: the example host, no failures. -/
theorem createMacvlan_tmp_name_gone_witness :
    "veth12345678" ≠ "eth0" ∧ '.' ∉ "veth12345678".data ∧
    findLink exampleHost.links exampleNs.id "veth12345678" = none ∧
    findLink (createMacvlan cfg "eth0" exampleNs true "aa:bb:cc:dd:ee:01"
      (.ok "veth12345678") exampleHost).2.links exampleNs.id "veth12345678" = none :=
  ⟨by decide, by decide, by decide,
    createMacvlan_tmp_name_gone cfg "eth0" exampleNs true "aa:bb:cc:dd:ee:01" "veth12345678"
      exampleHost (by decide) (by decide) (by decide)
      (fun _ => not_mem_of_all
        (p := fun ev => match ev with | .nsDo _ (some _) => false | _ => true) (by decide) rfl)
      (fun _ => not_mem_of_all
        (p := fun ev => match ev with | .linkDel _ _ (some _) => false | _ => true)
        (by decide) rfl)
      exampleNs.id (by decide)⟩

theorem parseBytes_length (sep : Char) (n : Nat) (s : List Char) (bs : List Nat)
    (h : parseBytes sep n s = some bs) : bs.length = n := by
  induction n generalizing s bs with
  | zero =>
    simp only [parseBytes, Option.some.injEq] at h
    subst h
    rfl
  | succ k ih =>
    unfold parseBytes at h
    split at h
    · cases h
    · split at h
      · cases h
      · rename_i rest hrest
        simp only [Option.some.injEq] at h
        subst h
        simp [ih _ _ hrest]

theorem parseWords_length (n : Nat) (s : List Char) (bs : List Nat)
    (h : parseWords n s = some bs) : bs.length = 2 * n := by
  induction n generalizing s bs with
  | zero =>
    simp only [parseWords, Option.some.injEq] at h
    subst h
    rfl
  | succ k ih =>
    unfold parseWords at h
    split at h
    · split at h
      · cases h
      · rename_i rest hrest
        simp only [Option.some.injEq] at h
        subst h
        simp [ih _ _ hrest]
        omega
    · cases h

/-- What `net.ParseMAC` returns has 6, 8 or 20 bytes. -/
theorem ParseMAC_length {mac : String} {hw : List Nat} (h : ParseMAC mac = some hw) :
    hw.length = 6 ∨ hw.length = 8 ∨ hw.length = 20 := by
  unfold ParseMAC at h
  dsimp only at h
  split at h
  · cases h
  · split at h
    · split at h
      · cases h
      · split at h
        · cases h
        · rename_i hn
          rw [parseBytes_length _ _ _ _ h]
          omega
    · split at h
      · split at h
        · cases h
        · split at h
          · cases h
          · rename_i hn
            rw [parseWords_length _ _ _ h]
            omega
      · cases h

/-- C9, counterexample: a MAC of eight bytes, which `net.ParseMAC` accepts.
The kernel takes the first six bytes for the address of the macvlan, so the
descriptor of the successful call carries `02:00:5e:10:00:00`, which is not
the canonical form of the MAC that was supplied. -/
theorem createMacvlan_descriptor_counterexample :
    (createMacvlan cfg "eth0" exampleNs true "02:00:5e:10:00:00:00:01" (.ok "veth12345678")
      exampleHost).1
      = .ok { Name := "eth0", Mac := "02:00:5e:10:00:00", Sandbox := "/proc/123/ns/net" } ∧
    (ParseMAC "02:00:5e:10:00:00:00:01").map hwString = some "02:00:5e:10:00:00:00:01" ∧
    "02:00:5e:10:00:00" ≠ "02:00:5e:10:00:00:00:01" :=
  ⟨rfl, by decide, by decide⟩

/-- C9, amended: the descriptor of a successful `createMacvlan` carries the
requested name, the path of the namespace, and the textual form of the
hardware address that the link named `ifName` has in the namespace when the
call returns.  For a non-empty MAC string that address is the first six bytes
of the parsed MAC, printed canonically: the canonical form of the supplied MAC
when that has six bytes.  For the empty string it is the address the kernel
gave the macvlan at creation, and no call wrote a hardware address. -/
theorem createMacvlan_descriptor (conf : netConf) (ifName : String) (netns : NetNS)
    (useVlan : Bool) (mac : String) (rnd : Except String String) (w : World) (d : Interface)
    (h : (createMacvlan conf ifName netns useVlan mac rnd w).1 = .ok d) :
    d.Name = ifName ∧ d.Sandbox = netns.path ∧
    ∃ l, findLink (createMacvlan conf ifName netns useVlan mac rnd w).2.links netns.id ifName
        = some l ∧
      d.Mac = hwString l.HardwareAddr ∧
      (mac ≠ "" → ∃ hw, ParseMAC mac = some hw ∧
        (hw.length = 6 ∨ hw.length = 8 ∨ hw.length = 20) ∧
        l.HardwareAddr = hw.take 6 ∧ d.Mac = hwString (hw.take 6) ∧
        (hw.length = 6 → l.HardwareAddr = hw ∧ d.Mac = hwString hw)) ∧
      (mac = "" → l.kind = .macvlan ∧ l.HardwareAddr = kernelHw l.Index ∧
        ∃ evs, (createMacvlan conf ifName netns useVlan mac rnd w).2.log = w.log ++ evs ∧
          ∀ ev ∈ evs, ev.isSetHardwareAddr = false) := by
  rcases hres : createMacvlan conf ifName netns useVlan mac rnd w with ⟨r, w'⟩
  rw [hres] at h
  simp only at h
  subst h
  obtain ⟨-, ⟨evs, hg, hev⟩, L0, -, hout⟩ := createMacvlan_spec hres
  rcases hout with ⟨he, -⟩ | ⟨_, _, _, -, he, -⟩ | ⟨_, _, -, he, -⟩ | ⟨_, _, -, he, -⟩ |
    ⟨nlF, -, -, -, -, hk, hfd, hd⟩
  · simp [errOf] at he
  · simp [errOf] at he
  · simp [errOf] at he
  · simp [errOf] at he
  · obtain ⟨h1, h2, h3, h4, h5⟩ := hd d rfl
    refine ⟨h1, h2, nlF, hfd, h3, ?_, ?_⟩
    · intro hm
      obtain ⟨hw, hp, hh⟩ := h4 (fun h0 => hm ((length_eq_zero_iff mac).1 h0))
      refine ⟨hw, hp, ParseMAC_length hp, hh, by rw [h3, hh], fun h6 => ?_⟩
      have h7 : hw.take 6 = hw := by
        rw [← h6]
        exact List.take_length hw
      rw [h7] at hh
      exact ⟨hh, by rw [h3, hh]⟩
    · intro hm
      have h0 := (length_eq_zero_iff mac).2 hm
      exact ⟨hk, h5 h0, evs, hg, fun ev hev' => hev ev hev' h0⟩

/-- C9, instance: Scenario A of the specification on the example host, with a
MAC of six bytes. -/
theorem createMacvlan_descriptor_witness :
    (createMacvlan cfg "eth0" exampleNs true "aa:bb:cc:dd:ee:01" (.ok "veth12345678")
      exampleHost).1
      = .ok { Name := "eth0", Mac := "aa:bb:cc:dd:ee:01", Sandbox := "/proc/123/ns/net" } ∧
    ∃ l, findLink (createMacvlan cfg "eth0" exampleNs true "aa:bb:cc:dd:ee:01"
        (.ok "veth12345678") exampleHost).2.links exampleNs.id "eth0" = some l ∧
      "aa:bb:cc:dd:ee:01" = hwString l.HardwareAddr ∧
      ∃ hw, ParseMAC "aa:bb:cc:dd:ee:01" = some hw ∧ l.HardwareAddr = hw.take 6 :=
  ⟨rfl, by
    obtain ⟨-, -, l, h1, h2, h3, -⟩ := createMacvlan_descriptor cfg "eth0" exampleNs true
      "aa:bb:cc:dd:ee:01" (.ok "veth12345678") exampleHost
      { Name := "eth0", Mac := "aa:bb:cc:dd:ee:01", Sandbox := "/proc/123/ns/net" } rfl
    obtain ⟨hw, h4, -, h5, -⟩ := h3 (by decide)
    exact ⟨l, h1, h2, hw, h4, h5⟩⟩

/-! ## The restoration of addresses -/

theorem arpTargets_append (a b : List Event) :
    arpTargets (a ++ b) = arpTargets a ++ arpTargets b := by
  induction a with
  | nil => rfl
  | cons ev t ih =>
    cases ev <;> simp [arpTargets, ih]

theorem arpLoop_spec (contVeth : Link) (ips : List IPConfig) (w : World) :
    (arpLoop contVeth (ips.map some) w).1 = .ok ∧
    (arpLoop contVeth (ips.map some) w).2.links = w.links ∧
    arpTargets (arpLoop contVeth (ips.map some) w).2.log = arpTargets w.log ++
      ((ips.filter (fun c => decide (c.Version = "4"))).map
        (fun c => (c.Address.IP, contVeth.Name))) := by
  induction ips generalizing w with
  | nil => simp [arpLoop]
  | cons c t ih =>
    simp only [List.map_cons, arpLoop]
    by_cases hv : c.Version = "4"
    · simp only [hv, if_true, GratuitousArpOverIface, popFault]
      obtain ⟨h1, h2, h3⟩ := ih (record (Event.gratuitousArp w.cur c.Address.IP contVeth.Name
        (w.faults.headD none)) { w with faults := w.faults.tail })
      refine ⟨h1, h2, ?_⟩
      rw [h3]
      simp [arpTargets_append, arpTargets, hv]
    · simp only [hv, if_false]
      obtain ⟨h1, h2, h3⟩ := ih w
      refine ⟨h1, h2, ?_⟩
      rw [h3]
      simp [hv]

/-- C7: the restoration of addresses (the closure of lines 147-163) on a
result all of whose assignments are non-nil.  An error of `ConfigureIface` is
the outcome and no gratuitous ARP is attempted.  Otherwise, when the interface
lookup succeeds, the outcome is success whatever the announcements return
(`w` holds an arbitrary fault script), and the announcements attempted are,
in list order, those of the addresses of the assignments of version "4", over
the interface found. -/
theorem restoreAddresses_policy (ifname : String) (result : Result) (ips : List IPConfig)
    (w : World) (hips : result.IPs = ips.map some) :
    (∀ e, (ConfigureIface ifname result w).1 = some e →
      (restoreAddresses ifname result w).1 = .failed e ∧
      arpTargets (restoreAddresses ifname result w).2.log = arpTargets w.log) ∧
    (∀ contVeth, (ConfigureIface ifname result w).1 = none →
      (InterfaceByName ifname (ConfigureIface ifname result w).2).1 = .ok contVeth →
      (restoreAddresses ifname result w).1 = .ok ∧
      arpTargets (restoreAddresses ifname result w).2.log = arpTargets w.log ++
        ((ips.filter (fun c => decide (c.Version = "4"))).map
          (fun c => (c.Address.IP, contVeth.Name)))) := by
  constructor
  · intro e he
    unfold restoreAddresses
    rcases hc : ConfigureIface ifname result w with ⟨r, w1⟩
    rw [hc] at he
    simp only at he
    subst he
    simp only [ConfigureIface, popFault, Prod.mk.injEq] at hc
    obtain ⟨-, rfl⟩ := hc
    simp [arpTargets_append, arpTargets]
  · intro contVeth hn hi
    unfold restoreAddresses
    rcases hc : ConfigureIface ifname result w with ⟨r, w1⟩
    rw [hc] at hn hi
    simp only at hn hi
    subst hn
    rcases hb : InterfaceByName ifname w1 with ⟨r2, w2⟩
    rw [hb] at hi
    simp only at hi
    subst hi
    simp only [hb, hips]
    obtain ⟨h1, -, h3⟩ := arpLoop_spec contVeth ips w2
    refine ⟨h1, ?_⟩
    rw [h3]
    have hw2 : arpTargets w2.log = arpTargets w.log := by
      simp only [ConfigureIface, popFault, Prod.mk.injEq] at hc
      obtain ⟨-, rfl⟩ := hc
      unfold InterfaceByName popFault at hb
      split at hb
      · simp at hb
      · rename_i w3 hp
        simp only [Prod.mk.injEq] at hp
        obtain ⟨-, rfl⟩ := hp
        split at hb
        · simp only [Prod.mk.injEq] at hb
          obtain ⟨-, rfl⟩ := hb
          simp [arpTargets_append, arpTargets]
        · simp at hb
    rw [hw2]

/-- C7, instance: Scenario A inside the namespace, with an announcement that
fails: one gratuitous ARP, for the IPv4 address, and the restoration succeeds. -/
theorem restoreAddresses_policy_witness :
    exampleResult.IPs = exampleIPs.map some ∧
    (restoreAddresses "eth0" exampleResult exampleInside).1 = .ok ∧
    arpTargets (restoreAddresses "eth0" exampleResult exampleInside).2.log
      = arpTargets exampleInside.log ++
        ((exampleIPs.filter (fun c => decide (c.Version = "4"))).map
          (fun c => (c.Address.IP, exampleMacvlan.Name))) :=
  ⟨rfl, (restoreAddresses_policy "eth0" exampleResult exampleIPs exampleInside rfl).2
    exampleMacvlan rfl rfl⟩

/-! ## The fix loop -/

/-- C2, the failing input: two networked containers with checkpoint files,
`check` and `fix` set.  The checkpoint of the first decodes without error but
has no result (or an empty list of interfaces): evaluating the argument
`checkpoint.Result.Interfaces[0].Mac` panics, `main` ends there, and the
checkpoint of the second container is never read. -/
theorem main_panics_on_checkpoint_without_result :
    ((main (exampleEnv exampleCheckPointNoResult) true true exampleHost).1 = .panicked ∧
      ∀ e, Event.readFile (checkPointFile "bbbbbbbbbbbb") e ∉
        (main (exampleEnv exampleCheckPointNoResult) true true exampleHost).2.log) ∧
    ((main (exampleEnv exampleCheckPointNoInterface) true true exampleHost).1 = .panicked ∧
      ∀ e, Event.readFile (checkPointFile "bbbbbbbbbbbb") e ∉
        (main (exampleEnv exampleCheckPointNoInterface) true true exampleHost).2.log) :=
  ⟨⟨by decide, fun _ => not_mem_of_all
      (p := fun ev => match ev with
        | .readFile f _ => !decide (f = checkPointFile "bbbbbbbbbbbb")
        | _ => true) (by decide) (by simp)⟩,
   ⟨by decide, fun _ => not_mem_of_all
      (p := fun ev => match ev with
        | .readFile f _ => !decide (f = checkPointFile "bbbbbbbbbbbb")
        | _ => true) (by decide) (by simp)⟩⟩

theorem setInterfaceZero_map_some (ips : List IPConfig) :
    setInterfaceZero (ips.map some)
      = some (ips.map (fun c => some { c with Interface := some 0 })) := by
  induction ips with
  | nil => rfl
  | cons c t ih => simp [setInterfaceZero, ih]

theorem setInterfaceZero_none {l : List (Option IPConfig)} (h : none ∈ l) :
    setInterfaceZero l = none := by
  induction l with
  | nil => cases h
  | cons a t ih =>
    cases a with
    | none => rfl
    | some c =>
      have ht : none ∈ t := by
        rcases List.mem_cons.1 h with h | h
        · cases h
        · exact h
      simp [setInterfaceZero, ih ht]

theorem all_some_or_none_mem (l : List (Option IPConfig)) :
    none ∈ l ∨ ∃ ips : List IPConfig, l = ips.map some := by
  induction l with
  | nil => exact Or.inr ⟨[], rfl⟩
  | cons a t ih =>
    cases a with
    | none => exact Or.inl (List.mem_cons_self _ _)
    | some c =>
      rcases ih with h | ⟨ips, rfl⟩
      · exact Or.inl (List.mem_cons_of_mem _ h)
      · exact Or.inr ⟨c :: ips, rfl⟩

/-- C8: one round of the fix loop whose checkpoint decodes, whose namespace
opens and whose interface is provisioned (`createMacvlan` returns the
descriptor `mi`).  Either an assignment of the checkpoint is nil, the round
panics and nothing is passed on; or the result `passed` handed to the address
restoration has the one interface `mi`, and its assignments are those of the
checkpoint, in the same order and unchanged but for the interface index, which
is 0 in each of them. -/
theorem fixOne_result_passed (env : Env) (id : String) (w : World) (cp : CheckPoint)
    (netns : NetNS) (result : Result) (first : Interface) (rest : List (Option Interface))
    (mi : Interface) (w3 : World)
    (hdec : env.decode (checkPointFile id) = .ok cp) (hns : env.getNS cp.Netns = .ok netns)
    (hres : cp.Result = some result) (hifs : result.Interfaces = some first :: rest)
    (hmv : createMacvlan cfg cp.Ifname netns true first.Mac (env.randomVethName id)
      (record (.getNS cp.Netns none) (record (.readFile (checkPointFile id) none) w))
        = (.ok mi, w3)) :
    (none ∈ result.IPs ∧ fixOne env id w = (.panicked, w3)) ∨
    ∃ (ips : List IPConfig) (passed : Result), result.IPs = ips.map some ∧
      passed.Interfaces = [some mi] ∧
      passed.IPs = ips.map (fun c => some { c with Interface := some 0 }) ∧
      passed.CNIVersion = result.CNIVersion ∧ passed.Routes = result.Routes ∧
      fixOne env id w = nsDo netns Outcome.failed (restoreAddresses cp.Ifname passed) w3 := by
  rcases all_some_or_none_mem result.IPs with hn | ⟨ips, hips⟩
  · left
    refine ⟨hn, ?_⟩
    simp [fixOne, hdec, hns, hres, hifs, hmv, setInterfaceZero_none hn]
  · right
    refine ⟨ips, ⟨result.CNIVersion, [some mi],
      ips.map (fun c => some { c with Interface := some 0 }), result.Routes⟩,
      hips, rfl, rfl, rfl, rfl, ?_⟩
    simp [fixOne, hdec, hns, hres, hifs, hmv, hips, setInterfaceZero_map_some]

/-- C8, instance: the first container of the example, with the checkpoint of
Scenario A whose second assignment pointed at interface 1. -/
theorem fixOne_result_passed_witness :
    (exampleEnv exampleCheckPoint).decode (checkPointFile "aaaaaaaaaaaa")
      = .ok exampleCheckPoint ∧
    ((none ∈ exampleResult.IPs ∧ fixOne (exampleEnv exampleCheckPoint) "aaaaaaaaaaaa" exampleHost
        = (.panicked, (createMacvlan cfg "eth0" exampleNs true "aa:bb:cc:dd:ee:01"
            (.ok "veth0000000a")
            (record (.getNS "/proc/123/ns/net" none)
              (record (.readFile (checkPointFile "aaaaaaaaaaaa") none) exampleHost))).2)) ∨
    ∃ (ips : List IPConfig) (passed : Result), exampleResult.IPs = ips.map some ∧
      passed.Interfaces
        = [some { Name := "eth0", Mac := "aa:bb:cc:dd:ee:01", Sandbox := "/proc/123/ns/net" }] ∧
      passed.IPs = ips.map (fun c => some { c with Interface := some 0 }) ∧
      passed.CNIVersion = exampleResult.CNIVersion ∧ passed.Routes = exampleResult.Routes ∧
      fixOne (exampleEnv exampleCheckPoint) "aaaaaaaaaaaa" exampleHost
        = nsDo exampleNs Outcome.failed (restoreAddresses "eth0" passed)
          (createMacvlan cfg "eth0" exampleNs true "aa:bb:cc:dd:ee:01"
            (.ok "veth0000000a")
            (record (.getNS "/proc/123/ns/net" none)
              (record (.readFile (checkPointFile "aaaaaaaaaaaa") none) exampleHost))).2) :=
  ⟨rfl, fixOne_result_passed (exampleEnv exampleCheckPoint) "aaaaaaaaaaaa" exampleHost
    exampleCheckPoint exampleNs exampleResult
    { Name := "eth0", Mac := "aa:bb:cc:dd:ee:01", Sandbox := "" } []
    { Name := "eth0", Mac := "aa:bb:cc:dd:ee:01", Sandbox := "/proc/123/ns/net" } _
    rfl rfl rfl rfl rfl⟩

/-! ## The inventory and the gate of `main` -/

theorem networkedIds_cons (c : Container) (cs : List Container) :
    networkedIds (c :: cs)
      = if networked c = true then c.ID.take 12 :: networkedIds cs else networkedIds cs := by
  unfold networkedIds
  by_cases h : networked c = true <;> simp [List.filter, h]

theorem missingIds_cons (env : Env) (c : Container) (cs : List Container) :
    missingIds env (c :: cs)
      = if networked c = true ∧ env.stat (checkPointFile (c.ID.take 12)) = .notExist
        then c.ID.take 12 :: missingIds env cs else missingIds env cs := by
  unfold missingIds
  rw [networkedIds_cons]
  by_cases h : networked c = true
  · by_cases h2 : env.stat (checkPointFile (c.ID.take 12)) = .notExist <;>
      simp [List.filter, h, h2]
  · simp [h]

/-- The inventory loop on containers with identifiers of 12 characters or
more: the identifiers of the networked containers, those among them without
checkpoint file, and nothing but `os.Stat` calls. -/
theorem inventory_spec (env : Env) (cs : List Container)
    (hids : ∀ c ∈ cs, networked c = true → 12 ≤ c.ID.length)
    (ids errMsg : List String) (w : World) :
    ∃ w', inventory env cs ids errMsg w
        = (some (ids ++ networkedIds cs, errMsg ++ missingIds env cs), w') ∧
      w'.links = w.links ∧ w'.cur = w.cur ∧ w'.faults = w.faults ∧
      LogExt (fun ev => ev.isRepairCall = false) w w' := by
  induction cs generalizing ids errMsg w with
  | nil => exact ⟨w, by simp [inventory, networkedIds, missingIds], rfl, rfl, rfl, LogExt.refl _ _⟩
  | cons c t ih =>
    have hids' : ∀ c ∈ t, networked c = true → 12 ≤ c.ID.length :=
      fun c hc => hids c (List.mem_cons_of_mem _ hc)
    have hc := hids c (List.mem_cons_self _ _)
    rw [networkedIds_cons, missingIds_cons]
    unfold inventory
    cases hn : c.Networks with
    | none =>
      have : networked c = false := by simp [networked, hn]
      simp only [this, Bool.false_eq_true, if_false, false_and]
      exact ih hids' ids errMsg w
    | some nets =>
      by_cases hl : nets.length ≠ 0
      · have hnet : networked c = true := by simp [networked, hn, hl]
        have hlen : ¬ c.ID.length < 12 := by have := hc hnet; omega
        simp only [hl, hnet, hlen, if_true, if_false, true_and, ne_eq, not_false_eq_true]
        by_cases hs : env.stat (checkPointFile (c.ID.take 12)) = .notExist
        · simp only [hs, if_true]
          obtain ⟨w', h1, h2, h3, h4, h5⟩ := ih hids' (ids ++ [c.ID.take 12])
            (errMsg ++ [c.ID.take 12]) (record (.stat (checkPointFile (c.ID.take 12))) w)
          refine ⟨w', by simpa using h1, h2, h3, h4, ?_⟩
          exact (LogExt.one (P := fun ev => ev.isRepairCall = false)
            (e := .stat (checkPointFile (c.ID.take 12))) rfl rfl).trans h5
        · simp only [hs, if_false]
          obtain ⟨w', h1, h2, h3, h4, h5⟩ := ih hids' (ids ++ [c.ID.take 12])
            errMsg (record (.stat (checkPointFile (c.ID.take 12))) w)
          refine ⟨w', by simpa using h1, h2, h3, h4, ?_⟩
          exact (LogExt.one (P := fun ev => ev.isRepairCall = false)
            (e := .stat (checkPointFile (c.ID.take 12))) rfl rfl).trans h5
      · have hnet : networked c = false := by simp [networked, hn]; simpa using hl
        simp only [hl, hnet, Bool.false_eq_true, if_false, false_and]
        exact ih hids' ids errMsg w

/-- C3: `main`, once the inventory is there (the client and the container
list were obtained, the identifiers have their 12 characters), enters the fix
loop exactly when `fix` is set and it is not the case that `check` is set and
a networked container lacks its checkpoint file.  When it enters, it runs the
fix loop on the identifiers of all networked containers, from a world in which
nothing has been done but `os.Stat` and printing; when it does not, it returns
with the link table untouched and a log that holds no call of the repair
phase. -/
theorem main_repair_gate (env : Env) (check fix : Bool) (w : World)
    (containers : List Container)
    (hclient : env.newClient = none) (hlist : env.containerList = .ok containers)
    (hids : ∀ c ∈ containers, networked c = true → 12 ≤ c.ID.length) :
    (fix = true ∧ ¬ (check = true ∧ missingIds env containers ≠ []) →
      ∃ w2, main env check fix w = fixLoop env (networkedIds containers) w2 ∧
        w2.links = w.links ∧ w2.cur = w.cur ∧ w2.faults = w.faults ∧
        LogExt (fun ev => ev.isRepairCall = false) w w2) ∧
    (¬ (fix = true ∧ ¬ (check = true ∧ missingIds env containers ≠ [])) →
      (main env check fix w).1 = .returned ∧
      (main env check fix w).2.links = w.links ∧
      LogExt (fun ev => ev.isRepairCall = false) w (main env check fix w).2) := by
  obtain ⟨w1, h1, h2, h3, h4, h5⟩ := inventory_spec env containers hids [] [] w
  simp only [List.nil_append] at h1
  have hmain : main env check fix w =
      if (check && decide ((missingIds env containers).length ≠ 0)) = true then
        (.returned, record (.print (String.intercalate "\n" (missingIds env containers)
          ++ " \ncheckpoint file not exist, check it manually\n")) w1)
      else if (!fix) = true then
        (.returned, record (.print "checkpoint files of containers are ok\n") w1)
      else fixLoop env (networkedIds containers)
        (record (.print "checkpoint files of containers are ok\n") w1) := by
    simp [main, hclient, hlist, h1]
  have hlen : (missingIds env containers).length ≠ 0 ↔ missingIds env containers ≠ [] := by
    simp
  constructor
  · rintro ⟨hf, hg⟩
    refine ⟨record (.print "checkpoint files of containers are ok\n") w1, ?_, h2, h3, h4,
      h5.trans (LogExt.one (P := fun ev => ev.isRepairCall = false) rfl rfl)⟩
    rw [hmain]
    have hc : ¬ ((check && decide ((missingIds env containers).length ≠ 0)) = true) := by
      intro hcm
      simp only [Bool.and_eq_true, decide_eq_true_eq] at hcm
      exact hg ⟨hcm.1, hlen.1 hcm.2⟩
    rw [if_neg hc, hf]
    rfl
  · intro hno
    rw [hmain]
    by_cases hc : (check && decide ((missingIds env containers).length ≠ 0)) = true
    · rw [if_pos hc]
      exact ⟨rfl, h2, h5.trans (LogExt.one (P := fun ev => ev.isRepairCall = false) rfl rfl)⟩
    · rw [if_neg hc]
      have hfix : fix = false := by
        cases hfx : fix with
        | false => rfl
        | true =>
          exfalso
          apply hno
          refine ⟨hfx, fun hcm => hc ?_⟩
          simp only [Bool.and_eq_true, decide_eq_true_eq]
          exact ⟨hcm.1, hlen.2 hcm.2⟩
      subst hfix
      rw [if_pos (show (!false) = true from rfl)]
      exact ⟨rfl, h2, h5.trans (LogExt.one (P := fun ev => ev.isRepairCall = false) rfl rfl)⟩

/-- C3, instance: the two example containers, `check` set and `fix` not set:
`main` returns and the link table is the one it started from. -/
theorem main_repair_gate_witness :
    (exampleEnv exampleCheckPoint).newClient = none ∧
    (main (exampleEnv exampleCheckPoint) true false exampleHost).1 = .returned ∧
    (main (exampleEnv exampleCheckPoint) true false exampleHost).2.links = exampleHost.links ∧
    LogExt (fun ev => ev.isRepairCall = false) exampleHost
      (main (exampleEnv exampleCheckPoint) true false exampleHost).2 :=
  ⟨rfl, (main_repair_gate (exampleEnv exampleCheckPoint) true false exampleHost
    [{ ID := "aaaaaaaaaaaa0123456789", Networks := some ["bridge"] },
     { ID := "bbbbbbbbbbbb0123456789", Networks := some ["bridge"] }]
    rfl rfl (by decide)).2 (fun h => Bool.false_ne_true h.1)⟩



end I40eNetFix
